import Mathlib

/-!
Verification of the WebsitePhishingDetection feature-extraction pipeline.

Python dictionaries are modelled as association lists with first-match
lookup and in-place update (`dictSet`), so insertion order and the
last-write-wins semantics of `dict.update` are preserved.  Feature values
are modelled by the inductive type `Val`; floating point quantities are
modelled over the reals.  External collaborators (the `tldextract`
library, the HTML parser, the HTTP fetch, the headless browser, `zlib`,
`numpy.polyfit` and the regex engine) are abstracted as explicit inputs,
while every feature computation present in the repository is translated
directly.
-/

namespace Phish

/-- A Python value stored in a feature dictionary: `None`, an `int`, a
`str`, a `float` (modelled as a real number) or a list of strings. -/
inductive Val where
  | null : Val
  | i : Int → Val
  | s : String → Val
  | r : ℝ → Val
  | lst : List String → Val

abbrev FeatMap := List (String × Val)

/-- Python `d[k]` / `d.get(k)`: first entry with the given key. -/
def lookupKey (d : List (String × α)) (k : String) : Option α :=
  match d with
  | [] => none
  | (k', v) :: rest => if k' = k then some v else lookupKey rest k

/-- Python `k in d`. -/
def containsKey (d : List (String × α)) (k : String) : Bool :=
  match d with
  | [] => false
  | (k', _) :: rest => if k' = k then true else containsKey rest k

/-- Python `d[k] = v`: overwrite in place if the key is present,
otherwise append (insertion order preserved). -/
def dictSet (d : List (String × α)) (k : String) (v : α) : List (String × α) :=
  if containsKey d k then
    d.map (fun p => if p.1 = k then (k, v) else p)
  else
    d ++ [(k, v)]

/-- Python `d1.update(d2)`. -/
def dictUpdate (d1 d2 : List (String × α)) : List (String × α) :=
  d2.foldl (fun d p => dictSet d p.1 p.2) d1

/-- Python `d.pop(k, None)` (the resulting dictionary). -/
def eraseKey (d : List (String × α)) (k : String) : List (String × α) :=
  d.filter (fun p => p.1 ≠ k)

def keysOf (d : List (String × α)) : List String := d.map Prod.fst

/-- Python `int(b)` on a boolean. -/
def boolToInt (b : Prop) [Decidable b] : Int := if b then 1 else 0

/-- Python `needle in hay` on strings (substring containment). -/
def strIn (needle hay : String) : Bool := decide (needle.data <:+: hay.data)

def dropLeadingWs : List Char → List Char
  | [] => []
  | c :: rest => if c.isWhitespace then dropLeadingWs rest else c :: rest

/-- Python `str.strip()`: remove leading and trailing whitespace. -/
def pyStrip (s : String) : String :=
  ⟨dropLeadingWs ((dropLeadingWs s.data.reverse).reverse)⟩

/-- Python `str.lower()` (ASCII case folding). -/
def pyLower (s : String) : String := ⟨s.data.map Char.toLower⟩

/-! ### `urllib.parse.urlparse`

Model of the standard-library URL parser, restricted to the behaviour
the repository relies on (`scheme`, `netloc`, `path`, `params`, `query`,
`fragment`). -/

structure ParseResult where
  scheme : String
  netloc : String
  path : String
  par : String
  query : String
  fragment : String
deriving DecidableEq, Repr

/-- Split a character list at the first occurrence of `c` (the separator
is dropped); `none` when `c` does not occur. -/
def splitAtChar (c : Char) : List Char → Option (List Char × List Char)
  | [] => none
  | x :: rest =>
      if x = c then some ([], rest)
      else (splitAtChar c rest).map (fun p => (x :: p.1, p.2))

def takeUntilStops (stops : List Char) : List Char → List Char
  | [] => []
  | c :: rest => if c ∈ stops then [] else c :: takeUntilStops stops rest

def dropUntilStops (stops : List Char) : List Char → List Char
  | [] => []
  | c :: rest => if c ∈ stops then c :: rest else dropUntilStops stops rest

/-- A valid scheme: nonempty, starts with a letter, and uses only
letters, digits, `+`, `-`, `.`. -/
def validScheme (pre : List Char) : Bool :=
  match pre with
  | [] => false
  | c :: _ =>
      c.isAlpha && pre.all (fun d => d.isAlphanum || d = '+' || d = '-' || d = '.')

/-- Model of `urllib.parse._splitparams`: split path parameters after the last
`;` segment separator of the final path segment. -/
def splitparams (s : List Char) : List Char × List Char :=
  if '/' ∈ s then
    let i0 := s.length - 1 - ((s.reverse.findIdx? (fun c => c == '/')).getD 0)
    match (s.drop i0).findIdx? (fun c => c == ';') with
    | none => (s, [])
    | some j => (s.take (i0 + j), s.drop (i0 + j + 1))
  else
    match s.findIdx? (fun c => c == ';') with
    | none => (s, [])
    | some i => (s.take i, s.drop (i + 1))

def urlparse (url : String) : ParseResult :=
  let s := url.data.filter (fun c => !(c == '\t' || c == '\r' || c == '\n'))
  let schemeRest : List Char × List Char :=
    match splitAtChar ':' s with
    | some (pre, post) => if validScheme pre then (pre.map Char.toLower, post) else ([], s)
    | none => ([], s)
  let scheme := schemeRest.1
  let netlocRest : List Char × List Char :=
    match schemeRest.2 with
    | '/' :: '/' :: r => (takeUntilStops ['/', '?', '#'] r, dropUntilStops ['/', '?', '#'] r)
    | r => ([], r)
  let netloc := netlocRest.1
  let fragSplit : List Char × List Char :=
    match splitAtChar '#' netlocRest.2 with
    | some (a, b) => (a, b)
    | none => (netlocRest.2, [])
  let querySplit : List Char × List Char :=
    match splitAtChar '?' fragSplit.1 with
    | some (a, b) => (a, b)
    | none => (fragSplit.1, [])
  let pathParams : List Char × List Char :=
    if ';' ∈ querySplit.1 then splitparams querySplit.1 else (querySplit.1, [])
  { scheme := ⟨scheme⟩, netloc := ⟨netloc⟩, path := ⟨pathParams.1⟩,
    par := ⟨pathParams.2⟩, query := ⟨querySplit.2⟩, fragment := ⟨fragSplit.2⟩ }

/-! ### `Static_content_extractor.py` -/

/-- Result of `urlparse(url)` restricted to the URL-structure features
(`extract_url_structure`). -/
def extract_url_structure (url : String) : FeatMap :=
  let parsed := urlparse url
  [("URL", Val.s url),
   ("LengthOfURL", Val.i url.length),
   ("HavingPath", Val.i (boolToInt (parsed.path ≠ "" ∧ parsed.path ≠ "/"))),
   ("PathLength", Val.i (if parsed.path ≠ "" then parsed.path.length else 0)),
   ("HavingQuery", Val.i (boolToInt (parsed.query ≠ ""))),
   ("HavingFragment", Val.i (boolToInt (parsed.fragment ≠ ""))),
   ("HavingAnchor", Val.i (boolToInt (parsed.fragment ≠ "")))]

/-- Python `str.splitlines` restricted to the common line boundaries
`\r\n`, `\r`, `\n` (no trailing empty line). -/
def splitlinesAux : List Char → List Char → List (List Char)
  | [], acc => if acc.isEmpty then [] else [acc]
  | '\r' :: '\n' :: rest, acc => acc :: splitlinesAux rest []
  | '\r' :: rest, acc => acc :: splitlinesAux rest []
  | '\n' :: rest, acc => acc :: splitlinesAux rest []
  | c :: rest, acc => splitlinesAux rest (acc ++ [c])

def pySplitlines (s : String) : List String :=
  (splitlinesAux s.data []).map (fun l => ⟨l⟩)

/-- Model of `extract_html_structure`: line count and longest line length of the
raw HTML text. -/
def extract_html_structure (html : String) : FeatMap :=
  let lines := pySplitlines html
  [("LineOfCode", Val.i lines.length),
   ("LongestLineLength", Val.i ((lines.map String.length).foldr max 0))]

/-- An `<a>` tag as seen through BeautifulSoup: its `href`, `target` and
`onclick` attributes (`none` = attribute absent). -/
structure Anchor where
  href : Option String
  target : Option String
  onclick : Option String
deriving DecidableEq, Repr

/-- The aspects of `BeautifulSoup(html, 'html.parser')` that
`extract_meta_and_tags` queries.  The parser itself is an external
collaborator; its observations are taken as input. -/
structure Soup where
  hasTitle : Bool
  hasIconLink : Bool
  hasDescription : Bool
  robotsContent : String
  imgCount : Nat
  stylesheetCount : Nat
  scriptSrcCount : Nat
  iframeCount : Nat
  anchors : List Anchor
deriving DecidableEq, Repr

/-- A fetched HTML document: the raw response text, its parse, and the
HTML-entity-decoded text (`html.unescape` is an external collaborator). -/
structure HtmlDoc where
  text : String
  soup : Soup
  decoded : String
deriving DecidableEq, Repr

structure AnchorCounts where
  cntSelf : Nat
  external : Nat
  empty : Nat
  popup : Nat
deriving DecidableEq, Repr

/-- Python truthiness of `base_domain` (an optional string). -/
def baseTruthy : Option String → Bool
  | none => false
  | some s => s ≠ ""

/-- Truthiness of `a.get('onclick')` followed by the
`'window.open' in a.get('onclick')` test. -/
def onclickOpens : Option String → Bool
  | none => false
  | some oc => oc ≠ "" && strIn "window.open" oc

/-- One iteration of the anchor loop of `extract_meta_and_tags`. -/
def anchorStep (base_domain : Option String) (c : AnchorCounts) (a : Anchor) : AnchorCounts :=
  let href := pyStrip (a.href.getD "")
  if href = "" ∨ href = "#" then
    { c with empty := c.empty + 1 }
  else
    let parsed_href := urlparse href
    let c1 :=
      if parsed_href.netloc = "" then
        { c with cntSelf := c.cntSelf + 1 }
      else if baseTruthy base_domain ∧ strIn (base_domain.getD "") parsed_href.netloc then
        { c with cntSelf := c.cntSelf + 1 }
      else
        { c with external := c.external + 1 }
    if pyLower (a.target.getD "") = "_blank" ∧ onclickOpens a.onclick then
      { c1 with popup := c1.popup + 1 }
    else
      c1

/-- The four anchor counters after the whole loop. -/
def anchorCounts (anchors : List Anchor) (base_domain : Option String) : AnchorCounts :=
  anchors.foldl (anchorStep base_domain) ⟨0, 0, 0, 0⟩

/-- Model of `extract_meta_and_tags(html, base_domain)`.  The dictionary is listed
in insertion order; `'HasCopyrightInfoKey '` (trailing space, as in the
source) is assigned twice with the same value, so its first position is
kept. -/
def extract_meta_and_tags (doc : HtmlDoc) (base_domain : Option String) : FeatMap :=
  let soup := doc.soup
  let counts := anchorCounts soup.anchors base_domain
  let lower_html := pyLower doc.decoded
  let banking_keywords := ["bank", "banking", "financial"]
  let payment_keywords := ["payment", "paypal", "credit card", "checkout"]
  let crypto_keywords := ["crypto", "cryptocurrency", "bitcoin", "ethereum", "blockchain"]
  let copyright_keywords := ["copyright", "©"]
  let hasBanking := boolToInt (banking_keywords.any (fun k => strIn k lower_html) = true)
  let hasPayment := boolToInt (payment_keywords.any (fun k => strIn k lower_html) = true)
  let hasCrypto := boolToInt (crypto_keywords.any (fun k => strIn k lower_html) = true)
  let hasCopyright := boolToInt (copyright_keywords.any (fun k => strIn k lower_html) = true)
  [("HasTitle", Val.i (boolToInt (soup.hasTitle = true))),
   ("HasFavicon", Val.i (boolToInt (soup.hasIconLink = true))),
   ("HasDescription", Val.i (boolToInt (soup.hasDescription = true))),
   ("HasRobotsBlocked", Val.i (boolToInt (strIn "noindex" (pyLower soup.robotsContent) = true))),
   ("CntImages", Val.i soup.imgCount),
   ("CntFilesCSS", Val.i soup.stylesheetCount),
   ("CntFilesJS", Val.i soup.scriptSrcCount),
   ("CntIFrame", Val.i soup.iframeCount),
   ("CntSelfHRef", Val.i counts.cntSelf),
   ("CntEmptyRef", Val.i counts.empty),
   ("CntExternalRef", Val.i counts.external),
   ("CntPopup", Val.i counts.popup),
   ("HasCopyrightInfoKey ", Val.i hasCopyright),
   ("HasBankingKey", Val.i hasBanking),
   ("HasPaymentKey", Val.i hasPayment),
   ("HasCryptoKey", Val.i hasCrypto),
   ("UniqueFeatureCnt", Val.i (hasBanking + hasPayment + hasCrypto + hasCopyright))]

/-- Model of `extract_static_features(url)`.  The HTTP GET is an external
collaborator, modelled by `fetch`: `none` when `requests.get` raises
(failure/timeout), `some doc` when it succeeds with document `doc`. -/
def extract_static_features (url : String) (fetch : Option HtmlDoc) : FeatMap :=
  let features : FeatMap := []
  let features := dictUpdate features (extract_url_structure url)
  match fetch with
  | none => dictSet features "IsUnreachable" (Val.i 1)
  | some doc =>
      let features := dictSet features "IsUnreachable" (Val.i 0)
      let features := dictUpdate features (extract_html_structure doc.text)
      let base_domain := (urlparse url).netloc
      dictUpdate features (extract_meta_and_tags doc (some base_domain))

/-! ### `domain_whois.py` -/

/-- Output of `tldextract.extract(url)` (external library). -/
structure TldExtracted where
  subdomain : String
  domain : String
  suffix : String
deriving DecidableEq, Repr

namespace DomainWhois

/-- Model of `parse_domain(url)`, with the `tldextract` call abstracted as input. -/
def parse_domain (url : String) (extracted : TldExtracted) : FeatMap :=
  let base_domain :=
    String.intercalate "." ([extracted.domain, extracted.suffix].filter (fun s => s ≠ ""))
  let number_of_subdomains : Nat :=
    if extracted.subdomain ≠ "" then
      ((extracted.subdomain.splitOn ".").filter (fun s => s ≠ "")).length
    else 0
  let is_domain_ip :=
    boolToInt ((base_domain.splitOn ".").all (fun seg => seg ≠ "" && seg.data.all Char.isDigit) = true)
  [("URL", Val.s url),
   ("Domain", Val.s base_domain),
   ("DomainLengthOfURL", Val.i base_domain.length),
   ("IsDomainIP", Val.i is_domain_ip),
   ("TLD", Val.s extracted.suffix),
   ("TLDLength", Val.i (if extracted.suffix ≠ "" then extracted.suffix.length else 0)),
   ("NumberOfSubdomains", Val.i number_of_subdomains)]

/-- Model of `format_domain_age(age_days)` from `domain_whois.py`.  Python `//`
and `%` are floor division and floor remainder. -/
def format_domain_age (age_days : Int) : String :=
  let years := age_days.fdiv 365
  let remaining_days := age_days.fmod 365
  let months := remaining_days.fdiv 30
  let days := remaining_days.fmod 30
  toString years ++ " years, " ++ toString months ++ " months, " ++ toString days ++ " days"

end DomainWhois

/-! ### `ssl_hosting.py` -/

namespace SslHosting

/-- Model of `format_domain_age(age_days)` from `ssl_hosting.py` (textually the
same function as in `domain_whois.py`). -/
def format_domain_age (age_days : Int) : String :=
  let years := age_days.fdiv 365
  let remaining_days := age_days.fmod 365
  let months := remaining_days.fdiv 30
  let days := remaining_days.fmod 30
  toString years ++ " years, " ++ toString months ++ " months, " ++ toString days ++ " days"

end SslHosting

/-- Model of `URLFeatureCollector.collect_ssl_hosting`: the stored partial is
`{"HasSSL": ssl_info.get("HasSSL")}` where `ssl_info` is whatever
`get_ssl_info` returned (on failure an error dictionary without the
`HasSSL` key, so the value is Python `None`). -/
def collect_ssl_hosting (ssl_info : FeatMap) : FeatMap :=
  [("HasSSL", (lookupKey ssl_info "HasSSL").getD Val.null)]

/-! ### `dynamic_content_extractor.py` -/

/-- The flag values that the Selenium session (external collaborator)
yields; `extract_dynamic_features` returns exactly this fixed-key
dictionary, every value defaulting to 0 (or `[]`) on failure. -/
structure DynamicObservations where
  isResponsive : Int
  isURLRedirects : Int
  isSelfRedirects : Int
  hasPopup : Int
  hasIFrame : Int
  isFormSubmitExternal : Int
  hasSocialMediaPage : Int
  hasSubmitButton : Int
  hasHiddenFields : Int
  hasPasswordFields : Int
  externalLinks : List String
deriving DecidableEq, Repr

/-- Model of `extract_dynamic_features(url)`: the returned dictionary, in the
insertion order of its initialisation. -/
def extract_dynamic_features (obs : DynamicObservations) : FeatMap :=
  [("IsResponsive", Val.i obs.isResponsive),
   ("IsURLRedirects", Val.i obs.isURLRedirects),
   ("IsSelfRedirects", Val.i obs.isSelfRedirects),
   ("HasPopup", Val.i obs.hasPopup),
   ("HasIFrame", Val.i obs.hasIFrame),
   ("IsFormSubmitExternal", Val.i obs.isFormSubmitExternal),
   ("HasSocialMediaPage", Val.i obs.hasSocialMediaPage),
   ("HasSubmitButton", Val.i obs.hasSubmitButton),
   ("HasHiddenFields", Val.i obs.hasHiddenFields),
   ("HasPasswordFields", Val.i obs.hasPasswordFields),
   ("ExternalLinks", Val.lst obs.externalLinks)]

/-- Model of `URLFeatureCollector.collect_dynamic_content`: pops `ExternalLinks`
before storing the partial. -/
def collect_dynamic_content (obs : DynamicObservations) : FeatMap :=
  eraseKey (extract_dynamic_features obs) "ExternalLinks"

/-! ### `feature_derivation.py` -/

/-- Model of `shannon_entropy(url)`: `-Σ p·log2(p)` accumulated over the
character frequency dictionary (keys in first-occurrence order). -/
noncomputable def shannon_entropy (url : String) : ℝ :=
  if url.length = 0 then 0
  else
    (url.data.dedup.map (fun c =>
      let p : ℝ := (url.data.count c : ℝ) / (url.length : ℝ);
      -(p * Real.logb 2 p))).sum

/-- External numeric collaborators of `feature_derivation.py`: the
`zlib` compressor (compressed byte length), `numpy.polyfit` (degree-1
fitted slope) and the `re` regex engine (`len(findall(pattern, s))`). -/
structure DeriveExternals where
  compressedLen : String → Nat
  polyfitSlope : List ℝ → List ℝ → ℝ
  findallCount : String → String → Nat

/-- Model of `kolmogorov_complexity(url)`: compressed length over UTF-8 length. -/
noncomputable def kolmogorov_complexity (ext : DeriveExternals) (url : String) : ℝ :=
  if url.length = 0 then 0
  else (ext.compressedLen url : ℝ) / (url.utf8ByteSize : ℝ)

/-- Model of `higuchi_fractal_dimension(url, kmax=10)`: Higuchi curve lengths with
the final linear fit delegated to the `numpy.polyfit` collaborator. -/
noncomputable def higuchi_fractal_dimension (ext : DeriveExternals) (url : String) : ℝ :=
  let x : List ℝ := url.data.map (fun c => (c.toNat : ℝ))
  let N := url.length
  if N < 2 then 0
  else
    let kmax := if N / 2 ≥ 1 then min 10 (N / 2) else 1
    let L : List ℝ := (List.range kmax).filterMap (fun k0 =>
      let k := k0 + 1
      let Lk : List ℝ := (List.range k).filterMap (fun m =>
        let n_max := (N - m - 1) / k
        if n_max = 0 then none
        else
          let Lmk := ((List.range n_max).map (fun i0 =>
            let i := i0 + 1
            |x.getD (m + i * k) 0 - x.getD (m + (i - 1) * k) 0|)).sum
          some (Lmk * ((N : ℝ) - 1) / ((n_max : ℝ) * (k : ℝ))))
      if Lk.isEmpty then none else some (Lk.sum / (Lk.length : ℝ)))
    if L.isEmpty then 0
    else
      let lnL := L.map Real.log
      let ln_k := (List.range L.length).map (fun i => -Real.log ((i : ℝ) + 1))
      ext.polyfitSlope ln_k lnL

/-- Model of `get_url_composition_features(url)`. -/
noncomputable def get_url_composition_features (url : String) : FeatMap :=
  let url_length : Nat := if url.length > 0 then url.length else 1
  let diffs : List Int :=
    (url.data.zip url.data.tail).map (fun p => |(p.2.toNat : Int) - (p.1.toNat : Int)|)
  let character_complexity : ℝ :=
    if url_length > 1 then ((diffs.sum : ℝ)) / ((diffs.length : ℝ)) else 0
  let letter_count := (url.data.filter Char.isAlpha).length
  let digit_count := (url.data.filter Char.isDigit).length
  let special_count :=
    (url.data.filter (fun c => !c.isAlphanum && !(c ∈ ['=', '?', '&', '#']))).length
  [("URLComplexity", Val.r ((url.data.dedup.length : ℝ) / (url_length : ℝ))),
   ("CharacterComplexity", Val.r character_complexity),
   ("LetterCntInURL", Val.i letter_count),
   ("URLLetterRatio", Val.r ((letter_count : ℝ) / (url_length : ℝ))),
   ("DigitCntInURL", Val.i digit_count),
   ("URLDigitRatio", Val.r ((digit_count : ℝ) / (url_length : ℝ))),
   ("EqualCharCntInURL", Val.i (url.data.count '=')),
   ("QuesMarkCntInURL", Val.i (url.data.count '?')),
   ("AmpCharCntInURL", Val.i (url.data.count '&')),
   ("NumberOfHashtags", Val.i (url.data.count '#')),
   ("OtherSpclCharCntInURL", Val.i special_count),
   ("URLOtherSpclCharRatio", Val.r ((special_count : ℝ) / (url_length : ℝ)))]

/-- Model of `count_hex_patterns` / `count_base64_patterns`: regex match counts,
with the regex engine abstracted (the pattern strings are passed through
verbatim). -/
noncomputable def count_hex_patterns (ext : DeriveExternals) (url : String) : Nat :=
  ext.findallCount "\\b[0-9A-Fa-f]\x7b6,\x7d\\b" url

noncomputable def count_base64_patterns (ext : DeriveExternals) (url : String) : Nat :=
  ext.findallCount "(?:[A-Za-z0-9+/]\x7b8,\x7d(?:==|=)?)" url

/-- Model of `derive_features(url)`. -/
noncomputable def derive_features (ext : DeriveExternals) (url : String) : FeatMap :=
  let features : FeatMap := []
  let features := dictUpdate features (get_url_composition_features url)
  let features := dictSet features "ShannonEntropy" (Val.r (shannon_entropy url))
  let features := dictSet features "KolmogorovComplexity" (Val.r (kolmogorov_complexity ext url))
  let features := dictSet features "FractalDimension" (Val.r (higuchi_fractal_dimension ext url))
  let features := dictSet features "HexPatternCnt" (Val.i (count_hex_patterns ext url))
  dictSet features "Base64PatternCnt" (Val.i (count_base64_patterns ext url))

/-! ### `data_collector.py` (`URLFeatureCollector`) -/

/-- Model of `URLFeatureCollector.REQUIRED_FEATURES`, transcribed verbatim
(including the `'HasCopyrightInfoKey '` entry with a trailing space). -/
def REQUIRED_FEATURES : List String :=
  ["LengthOfURL", "URLComplexity", "CharacterComplexity",
   "DomainLengthOfURL", "IsDomainIP", "TLD", "TLDLength",
   "LetterCntInURL", "URLLetterRatio", "DigitCntInURL", "URLDigitRatio",
   "EqualCharCntInURL", "QuesMarkCntInURL", "AmpCharCntInURL",
   "OtherSpclCharCntInURL", "URLOtherSpclCharRatio", "NumberOfHashtags",
   "NumberOfSubdomains", "HavingPath", "PathLength", "HavingQuery",
   "HavingFragment", "HavingAnchor", "HasSSL", "IsUnreachable",
   "LineOfCode", "LongestLineLength", "HasTitle", "HasFavicon",
   "HasRobotsBlocked", "IsResponsive", "IsURLRedirects", "IsSelfRedirects",
   "HasDescription", "HasPopup", "HasIFrame", "IsFormSubmitExternal",
   "HasSocialMediaPage", "HasSubmitButton", "HasHiddenFields",
   "HasPasswordFields", "HasBankingKey", "HasPaymentKey", "HasCryptoKey",
   "HasCopyrightInfoKey ", "CntImages", "CntFilesCSS", "CntFilesJS",
   "CntSelfHRef", "CntEmptyRef", "CntExternalRef", "CntPopup", "CntIFrame",
   "UniqueFeatureCnt", "ShannonEntropy", "FractalDimension",
   "KolmogorovComplexity", "HexPatternCnt", "Base64PatternCnt"]

/-- A value of the nested `self.features` dictionary: each collector
stores a dictionary, but `flatten_features` also tolerates non-dict
entries. -/
inductive Group where
  | dict : FeatMap → Group
  | val : Val → Group

abbrev Nested := List (String × Group)

/-- The external observations one run of `collect_all_features`
depends on. -/
structure CollectInputs where
  extracted : TldExtracted
  ssl_info : FeatMap
  fetch : Option HtmlDoc
  dyn : DynamicObservations
  ext : DeriveExternals

/-- Model of `collect_all_features`: the nested `self.features` dictionary in
insertion order (`domain_whois`, `ssl_hosting`, `static_content`,
`dynamic_content`, `derived`). -/
noncomputable def collect_all_features (url : String) (inp : CollectInputs) : Nested :=
  [("domain_whois", Group.dict (DomainWhois.parse_domain url inp.extracted)),
   ("ssl_hosting", Group.dict (collect_ssl_hosting inp.ssl_info)),
   ("static_content", Group.dict (extract_static_features url inp.fetch)),
   ("dynamic_content", Group.dict (collect_dynamic_content inp.dyn)),
   ("derived", Group.dict (derive_features inp.ext url))]

/-- Model of `flatten_features`. -/
def flatten_features (features : Nested) : FeatMap :=
  features.foldl
    (fun flat kg =>
      match kg.2 with
      | Group.dict g => dictUpdate flat g
      | Group.val v => dictSet flat kg.1 v)
    []

/-- The body of `validate_ml_features` applied to an already flattened
record. -/
def validate_flat (flattened : FeatMap) : Bool × List String × Nat :=
  let missing := REQUIRED_FEATURES.filter (fun feat => !containsKey flattened feat)
  let num_features := flattened.length
  if missing ≠ [] then (false, missing, num_features) else (true, [], num_features)

/-- Model of `validate_ml_features`. -/
def validate_ml_features (features : Nested) : Bool × List String × Nat :=
  validate_flat (flatten_features features)

/-- Model of `tld_mapping.get(raw_tld, 0)`: the frequency table is keyed by
suffix strings, so a non-string `raw_tld` misses and yields 0. -/
def tld_mapping_get (tld_mapping : FeatMap) (raw_tld : Val) : Val :=
  match raw_tld with
  | Val.s t => (lookupKey tld_mapping t).getD (Val.i 0)
  | _ => Val.i 0

/-- The record that `get_prediction` hands to the classifier
(`features_dict`, lines 120–132 of `data_collector.py`): built over
`REQUIRED_FEATURES` from the flattened features and the TLD frequency
table. -/
def get_prediction_features (flat_features tld_mapping : FeatMap) : FeatMap :=
  let raw_tld := (lookupKey flat_features "TLD").getD (Val.s "")
  REQUIRED_FEATURES.foldl
    (fun d key =>
      dictSet d key
        (if key = "TLD" then tld_mapping_get tld_mapping raw_tld
         else (lookupKey flat_features key).getD (Val.i 0)))
    []

/-! ### Dictionary lemmas -/

theorem lookupKey_append (d l : List (String × α)) (k : String) :
    lookupKey (d ++ l) k = (lookupKey d k).orElse (fun _ => lookupKey l k) := by
  induction d with
  | nil => simp [lookupKey]
  | cons p rest ih =>
      by_cases h : p.1 = k
      · simp [lookupKey, h, Option.orElse]
      · simpa [lookupKey, h] using ih

theorem containsKey_eq_false_iff (d : List (String × α)) (k : String) :
    containsKey d k = false ↔ lookupKey d k = none := by
  induction d with
  | nil => simp [containsKey, lookupKey]
  | cons p rest ih =>
      by_cases h : p.1 = k
      · simp [containsKey, lookupKey, h]
      · simpa [containsKey, lookupKey, h] using ih

theorem containsKey_iff_mem_keys (d : List (String × α)) (k : String) :
    containsKey d k = true ↔ k ∈ keysOf d := by
  induction d with
  | nil => simp [containsKey, keysOf]
  | cons p rest ih =>
      by_cases h : p.1 = k
      · simp [containsKey, keysOf, h]
      · simpa [containsKey, keysOf, h, Ne.symm h] using ih

theorem mem_keys_of_lookupKey (d : List (String × α)) (k : String) (v : α)
    (h : lookupKey d k = some v) : k ∈ keysOf d := by
  rw [← containsKey_iff_mem_keys]
  by_contra hc
  rw [Bool.not_eq_true] at hc
  rw [(containsKey_eq_false_iff d k).mp hc] at h
  exact Option.noConfusion h

theorem lookupKey_eq_none_of_not_mem_keys (d : List (String × α)) (k : String)
    (h : k ∉ keysOf d) : lookupKey d k = none := by
  rw [← containsKey_eq_false_iff]
  by_contra hc
  rw [Bool.not_eq_false] at hc
  exact h ((containsKey_iff_mem_keys d k).mp hc)

theorem lookupKey_map_overwrite_self (d : List (String × α)) (k : String) (v : α)
    (h : containsKey d k = true) :
    lookupKey (d.map (fun p => if p.1 = k then (k, v) else p)) k = some v := by
  induction d with
  | nil => simp [containsKey] at h
  | cons p rest ih =>
      simp only [List.map_cons]
      by_cases hp : p.1 = k
      · rw [if_pos hp]
        simp [lookupKey]
      · rw [if_neg hp]
        simp only [containsKey, if_neg hp] at h
        simp only [lookupKey, if_neg hp]
        exact ih h

theorem lookupKey_map_overwrite_ne (d : List (String × α)) (k j : String) (v : α)
    (hjk : j ≠ k) :
    lookupKey (d.map (fun p => if p.1 = k then (k, v) else p)) j = lookupKey d j := by
  induction d with
  | nil => rfl
  | cons p rest ih =>
      simp only [List.map_cons]
      by_cases hp : p.1 = k
      · rw [if_pos hp]
        have h1 : ¬(k = j) := fun hh => hjk hh.symm
        have h2 : ¬(p.1 = j) := by rw [hp]; exact h1
        simp only [lookupKey, if_neg h1, if_neg h2]
        exact ih
      · rw [if_neg hp]
        simp only [lookupKey]
        by_cases hj : p.1 = j
        · rw [if_pos hj, if_pos hj]
        · rw [if_neg hj, if_neg hj]
          exact ih

theorem lookupKey_dictSet_self (d : List (String × α)) (k : String) (v : α) :
    lookupKey (dictSet d k v) k = some v := by
  unfold dictSet
  by_cases h : containsKey d k = true
  · rw [if_pos h]
    exact lookupKey_map_overwrite_self d k v h
  · simp only [Bool.not_eq_true] at h
    rw [if_neg (by simp [h])]
    rw [lookupKey_append, (containsKey_eq_false_iff d k).mp h]
    simp [lookupKey, Option.orElse]

theorem lookupKey_dictSet_ne (d : List (String × α)) (k j : String) (v : α)
    (hjk : j ≠ k) : lookupKey (dictSet d k v) j = lookupKey d j := by
  unfold dictSet
  by_cases h : containsKey d k = true
  · rw [if_pos h]
    exact lookupKey_map_overwrite_ne d k j v hjk
  · simp only [Bool.not_eq_true] at h
    rw [if_neg (by simp [h])]
    rw [lookupKey_append]
    simp only [lookupKey, if_neg (fun hh => hjk (Eq.symm hh) : ¬(k = j))]
    cases lookupKey d j <;> simp [Option.orElse]

/-- Well-formedness: a dictionary has no duplicate keys (true of every
dictionary Python produces). -/
def NodupKeys (d : List (String × α)) : Prop := (keysOf d).Nodup

theorem lookupKey_dictUpdate (d1 d2 : List (String × α)) (k : String)
    (h : NodupKeys d2) :
    lookupKey (dictUpdate d1 d2) k = (lookupKey d2 k).orElse (fun _ => lookupKey d1 k) := by
  induction d2 generalizing d1 with
  | nil => simp [dictUpdate, lookupKey, Option.orElse]
  | cons p rest ih =>
      have hnd : NodupKeys rest := (List.nodup_cons.mp h).2
      have hnm : p.1 ∉ keysOf rest := by
        have := (List.nodup_cons.mp h).1
        simpa [keysOf] using this
      have step : dictUpdate d1 (p :: rest) = dictUpdate (dictSet d1 p.1 p.2) rest := by
        simp [dictUpdate]
      rw [step, ih _ hnd]
      by_cases hk : p.1 = k
      · subst hk
        rw [lookupKey_eq_none_of_not_mem_keys rest p.1 hnm]
        simp [lookupKey, lookupKey_dictSet_self, Option.orElse]
      · simp [lookupKey, hk, Option.orElse, lookupKey_dictSet_ne d1 p.1 k p.2 (Ne.symm hk)]

theorem keysOf_append (d l : List (String × α)) :
    keysOf (d ++ l) = keysOf d ++ keysOf l := by
  simp [keysOf]

theorem containsKey_append (d l : List (String × α)) (k : String) :
    containsKey (d ++ l) k = (containsKey d k || containsKey l k) := by
  induction d with
  | nil => simp [containsKey]
  | cons p rest ih =>
      by_cases h : p.1 = k
      · simp [containsKey, h]
      · simp [containsKey, h, ih]

theorem lookupKey_eraseKey_self (d : List (String × α)) (k : String) :
    lookupKey (eraseKey d k) k = none := by
  induction d with
  | nil => simp [eraseKey, lookupKey]
  | cons p rest ih =>
      by_cases h : p.1 = k
      · simpa [eraseKey, h] using ih
      · simpa [eraseKey, lookupKey, h] using ih

theorem foldl_dictSet_fresh (f : String → α) :
    ∀ (ks : List String) (d : List (String × α)),
      (∀ k ∈ ks, containsKey d k = false) → ks.Nodup →
      ks.foldl (fun d k => dictSet d k (f k)) d = d ++ ks.map (fun k => (k, f k)) := by
  intro ks
  induction ks with
  | nil => intro d _ _; simp
  | cons k rest ih =>
      intro d hfresh hnd
      have hk : containsKey d k = false := hfresh k (List.mem_cons_self k rest)
      have hset : dictSet d k (f k) = d ++ [(k, f k)] := by
        simp [dictSet, hk]
      have hfresh' : ∀ j ∈ rest, containsKey (d ++ [(k, f k)]) j = false := by
        intro j hj
        rw [containsKey_append]
        have h1 : containsKey d j = false := hfresh j (List.mem_cons_of_mem _ hj)
        have h2 : containsKey [(k, f k)] j = false := by
          have : k ≠ j := fun hkj => (List.nodup_cons.mp hnd).1 (hkj ▸ hj)
          simp [containsKey, this]
        simp [h1, h2]
      calc (k :: rest).foldl (fun d k => dictSet d k (f k)) d
          = rest.foldl (fun d k => dictSet d k (f k)) (d ++ [(k, f k)]) := by
            simp [List.foldl_cons, hset]
        _ = (d ++ [(k, f k)]) ++ rest.map (fun k => (k, f k)) :=
            ih _ hfresh' (List.nodup_cons.mp hnd).2
        _ = d ++ (k :: rest).map (fun k => (k, f k)) := by simp

theorem keysOf_map_mk (f : String → α) (ks : List String) :
    keysOf (ks.map (fun k => (k, f k))) = ks := by
  induction ks with
  | nil => rfl
  | cons k rest ih => simpa [keysOf] using ih

theorem lookupKey_map_mk (f : String → α) (ks : List String) (k : String)
    (h : k ∈ ks) : lookupKey (ks.map (fun k => (k, f k))) k = some (f k) := by
  induction ks with
  | nil => cases h
  | cons k' rest ih =>
      by_cases hk : k' = k
      · subst hk; simp [lookupKey]
      · have : k ∈ rest := by
          cases h with
          | head => exact absurd rfl hk
          | tail _ hh => exact hh
        simpa [lookupKey, hk] using ih this

/-! ### Anchor-loop lemmas -/

/-- The increments of one loop iteration do not depend on the
accumulator. -/
theorem anchorStep_split (base : Option String) (c : AnchorCounts) (a : Anchor) :
    anchorStep base c a =
      ⟨c.cntSelf + (anchorStep base ⟨0, 0, 0, 0⟩ a).cntSelf,
       c.external + (anchorStep base ⟨0, 0, 0, 0⟩ a).external,
       c.empty + (anchorStep base ⟨0, 0, 0, 0⟩ a).empty,
       c.popup + (anchorStep base ⟨0, 0, 0, 0⟩ a).popup⟩ := by
  unfold anchorStep
  by_cases h1 : (pyStrip (a.href.getD "") = "" ∨ pyStrip (a.href.getD "") = "#")
  · simp [h1]
  · by_cases h4 : (pyLower (a.target.getD "") = "_blank" ∧ onclickOpens a.onclick = true)
    · by_cases h2 : (urlparse (pyStrip (a.href.getD ""))).netloc = ""
      · simp [h1, h2, h4]
      · by_cases h3 : (baseTruthy base = true ∧
            strIn (base.getD "") (urlparse (pyStrip (a.href.getD ""))).netloc = true)
        · simp [h1, h2, h3, h4]
        · simp [h1, h2, h3, h4]
    · by_cases h2 : (urlparse (pyStrip (a.href.getD ""))).netloc = ""
      · simp [h1, h2, h4]
      · by_cases h3 : (baseTruthy base = true ∧
            strIn (base.getD "") (urlparse (pyStrip (a.href.getD ""))).netloc = true)
        · simp [h1, h2, h3, h4]
        · simp [h1, h2, h3, h4]

theorem foldl_anchorStep_split (base : Option String) (l : List Anchor) :
    ∀ c : AnchorCounts,
      l.foldl (anchorStep base) c =
        ⟨c.cntSelf + (anchorCounts l base).cntSelf,
         c.external + (anchorCounts l base).external,
         c.empty + (anchorCounts l base).empty,
         c.popup + (anchorCounts l base).popup⟩ := by
  induction l with
  | nil => intro c; simp [anchorCounts]
  | cons a rest ih =>
      intro c
      have h1 : (a :: rest).foldl (anchorStep base) c = rest.foldl (anchorStep base) (anchorStep base c a) := rfl
      rw [h1, ih (anchorStep base c a), anchorStep_split base c a]
      have h2 : anchorCounts (a :: rest) base = rest.foldl (anchorStep base) (anchorStep base ⟨0, 0, 0, 0⟩ a) := rfl
      rw [h2, ih (anchorStep base ⟨0, 0, 0, 0⟩ a)]
      simp [Nat.add_assoc]

/-- Decomposition of the counters at a cons. -/
theorem anchorCounts_cons (base : Option String) (a : Anchor) (l : List Anchor) :
    anchorCounts (a :: l) base =
      ⟨(anchorStep base ⟨0, 0, 0, 0⟩ a).cntSelf + (anchorCounts l base).cntSelf,
       (anchorStep base ⟨0, 0, 0, 0⟩ a).external + (anchorCounts l base).external,
       (anchorStep base ⟨0, 0, 0, 0⟩ a).empty + (anchorCounts l base).empty,
       (anchorStep base ⟨0, 0, 0, 0⟩ a).popup + (anchorCounts l base).popup⟩ := by
  have h : anchorCounts (a :: l) base = l.foldl (anchorStep base) (anchorStep base ⟨0, 0, 0, 0⟩ a) := rfl
  rw [h, foldl_anchorStep_split base l]

/-- Each anchor is classified into exactly one of the three href
classes. -/
theorem anchorStep_one_class (base : Option String) (a : Anchor) :
    (anchorStep base ⟨0, 0, 0, 0⟩ a).cntSelf + (anchorStep base ⟨0, 0, 0, 0⟩ a).empty +
      (anchorStep base ⟨0, 0, 0, 0⟩ a).external = 1 := by
  unfold anchorStep
  by_cases h1 : (pyStrip (a.href.getD "") = "" ∨ pyStrip (a.href.getD "") = "#")
  · simp [h1]
  · by_cases h4 : (pyLower (a.target.getD "") = "_blank" ∧ onclickOpens a.onclick = true)
    · by_cases h2 : (urlparse (pyStrip (a.href.getD ""))).netloc = ""
      · simp [h1, h2, h4]
      · by_cases h3 : (baseTruthy base = true ∧
            strIn (base.getD "") (urlparse (pyStrip (a.href.getD ""))).netloc = true)
        · simp [h1, h2, h3, h4]
        · simp [h1, h2, h3, h4]
    · by_cases h2 : (urlparse (pyStrip (a.href.getD ""))).netloc = ""
      · simp [h1, h2, h4]
      · by_cases h3 : (baseTruthy base = true ∧
            strIn (base.getD "") (urlparse (pyStrip (a.href.getD ""))).netloc = true)
        · simp [h1, h2, h3, h4]
        · simp [h1, h2, h3, h4]

/-- The popup heuristic fires at most once per anchor, and only on
anchors classified self or external. -/
theorem anchorStep_popup_le (base : Option String) (a : Anchor) :
    (anchorStep base ⟨0, 0, 0, 0⟩ a).popup ≤
      (anchorStep base ⟨0, 0, 0, 0⟩ a).cntSelf + (anchorStep base ⟨0, 0, 0, 0⟩ a).external := by
  unfold anchorStep
  by_cases h1 : (pyStrip (a.href.getD "") = "" ∨ pyStrip (a.href.getD "") = "#")
  · simp [h1]
  · by_cases h4 : (pyLower (a.target.getD "") = "_blank" ∧ onclickOpens a.onclick = true)
    · by_cases h2 : (urlparse (pyStrip (a.href.getD ""))).netloc = ""
      · simp [h1, h2, h4]
      · by_cases h3 : (baseTruthy base = true ∧
            strIn (base.getD "") (urlparse (pyStrip (a.href.getD ""))).netloc = true)
        · simp [h1, h2, h3, h4]
        · simp [h1, h2, h3, h4]
    · by_cases h2 : (urlparse (pyStrip (a.href.getD ""))).netloc = ""
      · simp [h1, h2, h4]
      · by_cases h3 : (baseTruthy base = true ∧
            strIn (base.getD "") (urlparse (pyStrip (a.href.getD ""))).netloc = true)
        · simp [h1, h2, h3, h4]
        · simp [h1, h2, h3, h4]

theorem anchorCounts_three_classes (l : List Anchor) (base : Option String) :
    (anchorCounts l base).cntSelf + (anchorCounts l base).empty +
      (anchorCounts l base).external = l.length := by
  induction l with
  | nil => simp [anchorCounts]
  | cons a rest ih =>
      rw [anchorCounts_cons]
      simp only [List.length_cons]
      have := anchorStep_one_class base a
      omega

theorem anchorCounts_popup_le (l : List Anchor) (base : Option String) :
    (anchorCounts l base).popup ≤
      (anchorCounts l base).cntSelf + (anchorCounts l base).external := by
  induction l with
  | nil => simp [anchorCounts]
  | cons a rest ih =>
      rw [anchorCounts_cons]
      have := anchorStep_popup_le base a
      simp only
      omega

/-- Reading an integer feature out of a feature dictionary. -/
def featInt (m : FeatMap) (k : String) : Int :=
  match lookupKey m k with
  | some (Val.i n) => n
  | _ => 0

/-! ### Claims -/

/-- C9: for every URL whose parsed path component is exactly `"/"`,
`extract_url_structure` reports `HavingPath = 0` while `PathLength = 1`,
so `HavingPath = 0` does not imply `PathLength = 0`. -/
theorem claim_C9 (url : String) (h : (urlparse url).path = "/") :
    lookupKey (extract_url_structure url) "HavingPath" = some (Val.i 0) ∧
    lookupKey (extract_url_structure url) "PathLength" = some (Val.i 1) := by
  constructor
  · simp [extract_url_structure, lookupKey, h, boolToInt]
  · simp [extract_url_structure, lookupKey, h]
    decide

theorem claim_C9_witness :
    (urlparse "https://example.com/").path = "/" ∧
    (lookupKey (extract_url_structure "https://example.com/") "HavingPath" = some (Val.i 0) ∧
     lookupKey (extract_url_structure "https://example.com/") "PathLength" = some (Val.i 1)) :=
  ⟨by decide, claim_C9 "https://example.com/" (by decide)⟩

/-- C10: in `extract_meta_and_tags`, `CntPopup` never exceeds
`CntSelfHRef + CntExternalRef`, because the popup heuristic is evaluated
only on anchors whose (stripped) href is neither blank nor `#`; in
particular an anchor with an empty href never counts as a popup trigger,
whatever its `target` and `onclick` attributes. -/
theorem claim_C10 (doc : HtmlDoc) (base : Option String) :
    (featInt (extract_meta_and_tags doc base) "CntPopup" ≤
      featInt (extract_meta_and_tags doc base) "CntSelfHRef" +
        featInt (extract_meta_and_tags doc base) "CntExternalRef") ∧
    ∀ (t o : Option String) (rest : List Anchor),
      (anchorCounts ({ href := some "", target := t, onclick := o } :: rest) base).popup =
        (anchorCounts rest base).popup := by
  constructor
  · have hle := anchorCounts_popup_le doc.soup.anchors base
    simp [featInt, extract_meta_and_tags, lookupKey]
    exact_mod_cast hle
  · intro t o rest
    rw [anchorCounts_cons]
    have hstep :
        (anchorStep base ⟨0, 0, 0, 0⟩ { href := some "", target := t, onclick := o }).popup = 0 := by
      have htrim : pyStrip "" = "" := by decide
      simp [anchorStep, htrim]
    simp [hstep]

/-- C3 (counterexample): the loop of `extract_meta_and_tags` runs over
*all* anchor tags and `a.get('href', '')` turns a missing `href`
attribute into `''`, which is counted as empty.  On a document with a
single `<a>` tag that has no `href` attribute the three counters sum to
1 while the number of anchors with an `href` attribute is 0. -/
theorem claim_C3_counterexample :
    (featInt (extract_meta_and_tags
        { text := "", decoded := "",
          soup := { hasTitle := false, hasIconLink := false, hasDescription := false,
                    robotsContent := "", imgCount := 0, stylesheetCount := 0,
                    scriptSrcCount := 0, iframeCount := 0,
                    anchors := [{ href := none, target := none, onclick := none }] } }
        (some "example.com")) "CntSelfHRef" +
     featInt (extract_meta_and_tags
        { text := "", decoded := "",
          soup := { hasTitle := false, hasIconLink := false, hasDescription := false,
                    robotsContent := "", imgCount := 0, stylesheetCount := 0,
                    scriptSrcCount := 0, iframeCount := 0,
                    anchors := [{ href := none, target := none, onclick := none }] } }
        (some "example.com")) "CntEmptyRef" +
     featInt (extract_meta_and_tags
        { text := "", decoded := "",
          soup := { hasTitle := false, hasIconLink := false, hasDescription := false,
                    robotsContent := "", imgCount := 0, stylesheetCount := 0,
                    scriptSrcCount := 0, iframeCount := 0,
                    anchors := [{ href := none, target := none, onclick := none }] } }
        (some "example.com")) "CntExternalRef" = 1) ∧
    ([(⟨none, none, none⟩ : Anchor)].countP (fun a => a.href.isSome) = 0) := by
  decide

/-- C3 (amended): `CntSelfHRef + CntEmptyRef + CntExternalRef` equals
the number of *all* anchor tags, each anchor falling in exactly one
class; an anchor lacking an `href` attribute contributes to
`CntEmptyRef` (not to none of the counts). -/
theorem claim_C3 (doc : HtmlDoc) (base : Option String) :
    (featInt (extract_meta_and_tags doc base) "CntSelfHRef" +
      featInt (extract_meta_and_tags doc base) "CntEmptyRef" +
      featInt (extract_meta_and_tags doc base) "CntExternalRef" =
      (doc.soup.anchors.length : Int)) ∧
    (∀ (a : Anchor) (b : Option String),
      (anchorCounts [a] b).cntSelf + (anchorCounts [a] b).empty +
        (anchorCounts [a] b).external = 1) ∧
    (∀ (t o b : Option String) (rest : List Anchor),
      (anchorCounts ({ href := none, target := t, onclick := o } :: rest) b).empty =
        (anchorCounts rest b).empty + 1) := by
  refine ⟨?_, ?_, ?_⟩
  · have hsum := anchorCounts_three_classes doc.soup.anchors base
    simp [featInt, extract_meta_and_tags, lookupKey]
    exact_mod_cast hsum
  · intro a b
    have h : anchorCounts [a] b = anchorStep b ⟨0, 0, 0, 0⟩ a := rfl
    rw [h]
    exact anchorStep_one_class b a
  · intro t o b rest
    rw [anchorCounts_cons]
    have hstep :
        (anchorStep b ⟨0, 0, 0, 0⟩ { href := none, target := t, onclick := o }).empty = 1 := by
      have htrim : pyStrip "" = "" := by decide
      simp [anchorStep, htrim]
    simp [hstep, Nat.add_comm]

/-- C4 (counterexample): the self/external decision uses Python
substring containment (`base_domain in parsed_href.netloc`), not
authority equality: with page authority `example.com`, an anchor to
authority `www.example.com` (present and different) is counted as
self, not external. -/
theorem claim_C4_counterexample :
    (featInt (extract_meta_and_tags
        { text := "", decoded := "",
          soup := { hasTitle := false, hasIconLink := false, hasDescription := false,
                    robotsContent := "", imgCount := 0, stylesheetCount := 0,
                    scriptSrcCount := 0, iframeCount := 0,
                    anchors := [{ href := some "http://www.example.com/x",
                                  target := none, onclick := none }] } }
        (some "example.com")) "CntSelfHRef" = 1) ∧
    (featInt (extract_meta_and_tags
        { text := "", decoded := "",
          soup := { hasTitle := false, hasIconLink := false, hasDescription := false,
                    robotsContent := "", imgCount := 0, stylesheetCount := 0,
                    scriptSrcCount := 0, iframeCount := 0,
                    anchors := [{ href := some "http://www.example.com/x",
                                  target := none, onclick := none }] } }
        (some "example.com")) "CntExternalRef" = 0) ∧
    (urlparse (pyStrip "http://www.example.com/x")).netloc = "www.example.com" ∧
    ("www.example.com" : String) ≠ "example.com" := by
  decide

/-- C4 (amended): for an anchor whose stripped href is neither blank nor
`#`, the anchor is counted self iff its parsed href has no network
authority, or the base domain is non-empty and occurs as a *substring*
of that authority; it is counted external iff the authority is present
and the substring test fails (in particular a truthy base domain that is
merely contained in a different authority still counts as self, and an
empty base domain sends every anchor with an authority to external). -/
theorem claim_C4 (a : Anchor) (base : Option String)
    (h1 : pyStrip (a.href.getD "") ≠ "") (h2 : pyStrip (a.href.getD "") ≠ "#") :
    ((anchorCounts [a] base).cntSelf = 1 ↔
      ((urlparse (pyStrip (a.href.getD ""))).netloc = "" ∨
       (baseTruthy base = true ∧
        strIn (base.getD "") (urlparse (pyStrip (a.href.getD ""))).netloc = true))) ∧
    ((anchorCounts [a] base).external = 1 ↔
      ((urlparse (pyStrip (a.href.getD ""))).netloc ≠ "" ∧
       ¬(baseTruthy base = true ∧
         strIn (base.getD "") (urlparse (pyStrip (a.href.getD ""))).netloc = true))) := by
  have h : anchorCounts [a] base = anchorStep base ⟨0, 0, 0, 0⟩ a := rfl
  rw [h]
  unfold anchorStep
  have h1' : ¬(pyStrip (a.href.getD "") = "" ∨ pyStrip (a.href.getD "") = "#") := by
    intro hc
    cases hc with
    | inl hc => exact h1 hc
    | inr hc => exact h2 hc
  by_cases h4 : (pyLower (a.target.getD "") = "_blank" ∧ onclickOpens a.onclick = true)
  · by_cases hn : (urlparse (pyStrip (a.href.getD ""))).netloc = ""
    · simp [h1', hn, h4]
    · by_cases h3 : (baseTruthy base = true ∧
          strIn (base.getD "") (urlparse (pyStrip (a.href.getD ""))).netloc = true)
      · simp [h1', hn, h3, h4]
      · simp [h1', hn, h3, h4]
  · by_cases hn : (urlparse (pyStrip (a.href.getD ""))).netloc = ""
    · simp [h1', hn, h4]
    · by_cases h3 : (baseTruthy base = true ∧
          strIn (base.getD "") (urlparse (pyStrip (a.href.getD ""))).netloc = true)
      · simp [h1', hn, h3, h4]
      · simp [h1', hn, h3, h4]

theorem claim_C4_witness :
    (pyStrip ((some "http://www.example.com/x").getD "") ≠ "") ∧
    (pyStrip ((some "http://www.example.com/x").getD "") ≠ "#") ∧
    (((anchorCounts [(⟨some "http://www.example.com/x", none, none⟩ : Anchor)] (some "example.com")).cntSelf = 1 ↔
      ((urlparse (pyStrip ((some "http://www.example.com/x").getD ""))).netloc = "" ∨
       (baseTruthy (some "example.com") = true ∧
        strIn ((some "example.com").getD "")
          (urlparse (pyStrip ((some "http://www.example.com/x").getD ""))).netloc = true))) ∧
     ((anchorCounts [(⟨some "http://www.example.com/x", none, none⟩ : Anchor)] (some "example.com")).external = 1 ↔
      (((urlparse (pyStrip ((some "http://www.example.com/x").getD ""))).netloc ≠ "") ∧
       ¬(baseTruthy (some "example.com") = true ∧
         strIn ((some "example.com").getD "")
           (urlparse (pyStrip ((some "http://www.example.com/x").getD ""))).netloc = true)))) :=
  ⟨by decide, by decide,
   claim_C4 { href := some "http://www.example.com/x", target := none, onclick := none }
     (some "example.com") (by decide) (by decide)⟩

theorem fdiv_ofNat_ofNat (m k : Nat) : (Int.ofNat m).fdiv (Int.ofNat k) = Int.ofNat (m / k) := by
  cases m with
  | zero => rw [Nat.zero_div]; rfl
  | succ m => rfl

theorem fmod_ofNat_ofNat (m k : Nat) : (Int.ofNat m).fmod (Int.ofNat k) = Int.ofNat (m % k) := by
  cases m with
  | zero => rw [Nat.zero_mod]; rfl
  | succ m => rfl

/-- C6: for a non-negative number of days, `format_domain_age` renders
`"{y} years, {m} months, {d} days"` with `y = days // 365`,
`m = (days % 365) // 30`, `d = (days % 365) % 30` (365-day years,
30-day months), and the TLS adapter's copy of the function is
identical. -/
theorem claim_C6 (d : Int) (h : 0 ≤ d) :
    (DomainWhois.format_domain_age d =
      toString (d.toNat / 365) ++ " years, " ++ toString (d.toNat % 365 / 30) ++
        " months, " ++ toString (d.toNat % 365 % 30) ++ " days") ∧
    SslHosting.format_domain_age d = DomainWhois.format_domain_age d := by
  obtain ⟨n, rfl⟩ := Int.eq_ofNat_of_zero_le h
  refine ⟨?_, rfl⟩
  show toString ((Int.ofNat n).fdiv (Int.ofNat 365)) ++ " years, " ++
      toString (((Int.ofNat n).fmod (Int.ofNat 365)).fdiv (Int.ofNat 30)) ++ " months, " ++
      toString (((Int.ofNat n).fmod (Int.ofNat 365)).fmod (Int.ofNat 30)) ++ " days" = _
  rw [fdiv_ofNat_ofNat n 365, fmod_ofNat_ofNat n 365,
    fdiv_ofNat_ofNat (n % 365) 30, fmod_ofNat_ofNat (n % 365) 30]
  rfl

theorem claim_C6_witness :
    (0 : Int) ≤ 400 ∧
    ((DomainWhois.format_domain_age 400 =
        toString ((400 : Int).toNat / 365) ++ " years, " ++
          toString ((400 : Int).toNat % 365 / 30) ++ " months, " ++
          toString ((400 : Int).toNat % 365 % 30) ++ " days") ∧
      SslHosting.format_domain_age 400 = DomainWhois.format_domain_age 400) :=
  ⟨by decide, claim_C6 400 (by decide)⟩

/-! Auxiliary facts about the failure path of `extract_static_features`. -/

theorem containsKey_eq_false_of_not_mem (d : List (String × α)) (k : String)
    (h : k ∉ keysOf d) : containsKey d k = false := by
  rw [containsKey_eq_false_iff]
  exact lookupKey_eq_none_of_not_mem_keys d k h

theorem foldl_dictSet_pairs_fresh :
    ∀ (d2 d : List (String × α)),
      (∀ k ∈ keysOf d2, containsKey d k = false) → NodupKeys d2 →
      d2.foldl (fun d p => dictSet d p.1 p.2) d = d ++ d2 := by
  intro d2
  induction d2 with
  | nil => intro d _ _; simp
  | cons p rest ih =>
      intro d hfresh hnd
      have hp : containsKey d p.1 = false := hfresh p.1 (by simp [keysOf])
      have hset : dictSet d p.1 p.2 = d ++ [p] := by
        simp [dictSet, hp]
      have hnm : p.1 ∉ keysOf rest := by
        have := (List.nodup_cons.mp hnd).1
        simpa [keysOf] using this
      have hfresh' : ∀ k ∈ keysOf rest, containsKey (d ++ [p]) k = false := by
        intro k hk
        rw [containsKey_append]
        have h1 : containsKey d k = false := hfresh k (by simp [keysOf]; right; simpa [keysOf] using hk)
        have h2 : containsKey [p] k = false := by
          have : p.1 ≠ k := fun hh => hnm (hh ▸ hk)
          simp [containsKey, this]
        simp [h1, h2]
      calc (p :: rest).foldl (fun d q => dictSet d q.1 q.2) d
          = rest.foldl (fun d q => dictSet d q.1 q.2) (d ++ [p]) := by
            simp [List.foldl_cons, hset]
        _ = (d ++ [p]) ++ rest := ih _ hfresh' (List.nodup_cons.mp hnd).2
        _ = d ++ (p :: rest) := by simp

/-- Model of `dict.update` degenerates to concatenation when the incoming keys
are fresh. -/
theorem dictUpdate_eq_append (d1 d2 : List (String × α))
    (hfresh : ∀ k ∈ keysOf d2, containsKey d1 k = false) (hnd : NodupKeys d2) :
    dictUpdate d1 d2 = d1 ++ d2 :=
  foldl_dictSet_pairs_fresh d2 d1 hfresh hnd

theorem static_fail_eq (url : String) :
    extract_static_features url none =
      extract_url_structure url ++ [("IsUnreachable", Val.i 1)] := by
  have hkeys : keysOf (extract_url_structure url) =
      ["URL", "LengthOfURL", "HavingPath", "PathLength", "HavingQuery",
       "HavingFragment", "HavingAnchor"] := rfl
  have hnd : NodupKeys (extract_url_structure url) := by
    rw [NodupKeys, hkeys]; decide
  have hupd : dictUpdate [] (extract_url_structure url) = extract_url_structure url := by
    rw [dictUpdate_eq_append [] (extract_url_structure url) (fun k _ => rfl) hnd]
    simp
  have hiu : containsKey (extract_url_structure url) "IsUnreachable" = false := by
    apply containsKey_eq_false_of_not_mem
    rw [hkeys]; decide
  show dictSet (dictUpdate [] (extract_url_structure url)) "IsUnreachable" (Val.i 1) = _
  rw [hupd]
  simp [dictSet, hiu]

/-- C2 (counterexample): on fetch failure the content-derived features
are not present with value 0 — they are absent from the returned
mapping altogether (`LineOfCode` has no entry at all, while
`IsUnreachable = 1`). -/
theorem claim_C2_counterexample :
    lookupKey (extract_static_features "http://example.com/x" none) "LineOfCode" ≠
      some (Val.i 0) ∧
    lookupKey (extract_static_features "http://example.com/x" none) "IsUnreachable" =
      some (Val.i 1) := by
  have h0 : lookupKey (extract_static_features "http://example.com/x" none) "LineOfCode" =
      none := rfl
  exact ⟨by rw [h0]; intro h; exact Option.noConfusion h, rfl⟩

/-- C2 (amended): for every URL whose fetch fails, the result is exactly
the URL-structural features (computed from the URL string alone by
`extract_url_structure`) plus `IsUnreachable = 1`; every content-derived
feature is *absent* from the mapping (it only becomes 0 later, through
the defaulting in `get_prediction`). -/
theorem claim_C2 (url : String) (k : String)
    (hk : k ∈ ["LineOfCode", "LongestLineLength", "HasTitle", "HasFavicon",
        "HasDescription", "HasRobotsBlocked", "CntImages", "CntFilesCSS",
        "CntFilesJS", "CntIFrame", "CntSelfHRef", "CntEmptyRef", "CntExternalRef",
        "CntPopup", "HasBankingKey", "HasPaymentKey", "HasCryptoKey",
        "HasCopyrightInfoKey ", "UniqueFeatureCnt"]) :
    (extract_static_features url none =
      extract_url_structure url ++ [("IsUnreachable", Val.i 1)]) ∧
    lookupKey (extract_static_features url none) "IsUnreachable" = some (Val.i 1) ∧
    lookupKey (extract_static_features url none) k = none ∧
    lookupKey (extract_static_features url none) "URL" = some (Val.s url) ∧
    lookupKey (extract_static_features url none) "LengthOfURL" = some (Val.i url.length) := by
  have hfail := static_fail_eq url
  have hkeys : keysOf (extract_static_features url none) =
      ["URL", "LengthOfURL", "HavingPath", "PathLength", "HavingQuery",
       "HavingFragment", "HavingAnchor", "IsUnreachable"] := by
    rw [hfail]; rfl
  refine ⟨hfail, ?_, ?_, ?_, ?_⟩
  · rw [hfail, lookupKey_append]
    have hn : lookupKey (extract_url_structure url) "IsUnreachable" = none := by
      apply lookupKey_eq_none_of_not_mem_keys
      rw [show keysOf (extract_url_structure url) =
        ["URL", "LengthOfURL", "HavingPath", "PathLength", "HavingQuery",
         "HavingFragment", "HavingAnchor"] from rfl]
      decide
    rw [hn]
    simp [lookupKey, Option.orElse]
  · apply lookupKey_eq_none_of_not_mem_keys
    rw [hkeys]
    fin_cases hk <;> decide
  · rw [hfail, lookupKey_append]
    simp [extract_url_structure, lookupKey, Option.orElse]
  · rw [hfail, lookupKey_append]
    simp [extract_url_structure, lookupKey, Option.orElse]

theorem claim_C2_witness :
    ("LineOfCode" ∈ ["LineOfCode", "LongestLineLength", "HasTitle", "HasFavicon",
        "HasDescription", "HasRobotsBlocked", "CntImages", "CntFilesCSS",
        "CntFilesJS", "CntIFrame", "CntSelfHRef", "CntEmptyRef", "CntExternalRef",
        "CntPopup", "HasBankingKey", "HasPaymentKey", "HasCryptoKey",
        "HasCopyrightInfoKey ", "UniqueFeatureCnt"]) ∧
    ((extract_static_features "http://x.com/a" none =
        extract_url_structure "http://x.com/a" ++ [("IsUnreachable", Val.i 1)]) ∧
      lookupKey (extract_static_features "http://x.com/a" none) "IsUnreachable" =
        some (Val.i 1) ∧
      lookupKey (extract_static_features "http://x.com/a" none) "LineOfCode" = none ∧
      lookupKey (extract_static_features "http://x.com/a" none) "URL" =
        some (Val.s "http://x.com/a") ∧
      lookupKey (extract_static_features "http://x.com/a" none) "LengthOfURL" =
        some (Val.i ("http://x.com/a" : String).length)) :=
  ⟨by decide, claim_C2 "http://x.com/a" "LineOfCode" (by decide)⟩

/-- C5: `shannon_entropy(s)` equals `-Σ p·log2(p)` over the character
frequency distribution of `s`; it is 0 on the empty string and 0 on a
string made of one repeated character. -/
theorem claim_C5 :
    (∀ s : String,
      shannon_entropy s =
        -(∑ c ∈ s.data.toFinset,
          ((s.data.count c : ℝ) / (s.length : ℝ)) *
            Real.logb 2 ((s.data.count c : ℝ) / (s.length : ℝ)))) ∧
    shannon_entropy "" = 0 ∧
    (∀ (n : ℕ) (c : Char), shannon_entropy (String.mk (List.replicate n c)) = 0) := by
  have key : ∀ s : String,
      shannon_entropy s =
        -(∑ c ∈ s.data.toFinset,
          ((s.data.count c : ℝ) / (s.length : ℝ)) *
            Real.logb 2 ((s.data.count c : ℝ) / (s.length : ℝ))) := by
    intro s
    by_cases h : s.length = 0
    · have hdata : s.data = [] := by
        have : s.data.length = 0 := h
        exact List.length_eq_zero.mp this
      rw [shannon_entropy, if_pos h, hdata]
      simp
    · rw [shannon_entropy, if_neg h]
      have hn : s.data.dedup.Nodup := List.nodup_dedup _
      have hfs : s.data.dedup.toFinset = s.data.toFinset :=
        Finset.ext (fun a => by simp)
      rw [← List.sum_toFinset _ hn, hfs, ← Finset.sum_neg_distrib]
  refine ⟨key, ?_, ?_⟩
  · rfl
  · intro n c
    cases n with
    | zero => rfl
    | succ n =>
        have hlen : (String.mk (List.replicate (n + 1) c)).length = n + 1 := by
          simp [String.length]
        rw [shannon_entropy, if_neg (by rw [hlen]; exact Nat.succ_ne_zero n)]
        have hdata : (String.mk (List.replicate (n + 1) c)).data = List.replicate (n + 1) c := rfl
        rw [hdata, List.replicate_dedup (Nat.succ_ne_zero n)]
        have hcount : (List.replicate (n + 1) c).count c = n + 1 := by
          simp
        simp only [List.map_cons, List.map_nil, List.sum_cons, List.sum_nil, add_zero]
        rw [hcount, hlen]
        have hp : ((n + 1 : ℕ) : ℝ) / ((n + 1 : ℕ) : ℝ) = 1 :=
          div_self (by exact_mod_cast Nat.succ_ne_zero n)
        rw [hp, Real.logb_one]
        simp

/-- C1: the record `get_prediction` hands to the classifier has exactly
the keys of `REQUIRED_FEATURES`; a name absent from the flattened
features gets value 0, and the TLD feature is not used raw but mapped
through the frequency table, with 0 for a suffix not present there. -/
theorem claim_C1 (flat tld_mapping : FeatMap) :
    keysOf (get_prediction_features flat tld_mapping) = REQUIRED_FEATURES ∧
    (∀ k, k ∈ REQUIRED_FEATURES → k ≠ "TLD" →
      lookupKey (get_prediction_features flat tld_mapping) k =
        some ((lookupKey flat k).getD (Val.i 0))) ∧
    lookupKey (get_prediction_features flat tld_mapping) "TLD" =
      some (tld_mapping_get tld_mapping ((lookupKey flat "TLD").getD (Val.s ""))) := by
  have hnodup : REQUIRED_FEATURES.Nodup := by decide
  have heq : get_prediction_features flat tld_mapping =
      REQUIRED_FEATURES.map (fun k =>
        (k, if k = "TLD" then
              tld_mapping_get tld_mapping ((lookupKey flat "TLD").getD (Val.s ""))
            else (lookupKey flat k).getD (Val.i 0))) := by
    unfold get_prediction_features
    rw [foldl_dictSet_fresh _ REQUIRED_FEATURES [] (fun k _ => rfl) hnodup]
    simp
  refine ⟨?_, ?_, ?_⟩
  · rw [heq, keysOf_map_mk]
  · intro k hk hne
    rw [heq, lookupKey_map_mk _ REQUIRED_FEATURES k hk, if_neg hne]
  · rw [heq, lookupKey_map_mk _ REQUIRED_FEATURES "TLD" (by decide), if_pos rfl]

theorem claim_C1_witness :
    ("LengthOfURL" ∈ REQUIRED_FEATURES) ∧ ("LengthOfURL" ≠ "TLD") ∧
    lookupKey
        (get_prediction_features [("TLD", Val.s "com"), ("LengthOfURL", Val.i 20)]
          [("com", Val.i 5)]) "LengthOfURL" =
      some ((lookupKey [("TLD", Val.s "com"), ("LengthOfURL", Val.i 20)] "LengthOfURL").getD
        (Val.i 0)) :=
  ⟨by decide, by decide,
   (claim_C1 [("TLD", Val.s "com"), ("LengthOfURL", Val.i 20)] [("com", Val.i 5)]).2.1
     "LengthOfURL" (by decide) (by decide)⟩

/-- The two branches of `validate_ml_features` collapse to one tuple. -/
theorem validate_flat_eq (d : FeatMap) :
    validate_flat d =
      (decide (REQUIRED_FEATURES.filter (fun feat => !containsKey d feat) = []),
       REQUIRED_FEATURES.filter (fun feat => !containsKey d feat),
       d.length) := by
  unfold validate_flat
  by_cases hm : REQUIRED_FEATURES.filter (fun feat => !containsKey d feat) = []
  · rw [if_neg (fun hcon => hcon hm), hm]
    simp
  · rw [if_pos hm]
    simp [hm]

/-- C7: `validate_ml_features` reports as missing exactly the required
names absent from the flattened record, `isValid` holds iff nothing is
missing, and removing any single required key from a flat record makes
`validate` report that key as missing with `isValid = false`. -/
theorem claim_C7 (features : Nested) :
    ((validate_ml_features features).2.1 =
      REQUIRED_FEATURES.filter (fun k => (lookupKey (flatten_features features) k).isNone)) ∧
    ((validate_ml_features features).1 = true ↔ (validate_ml_features features).2.1 = []) ∧
    (∀ (flat : FeatMap) (k : String), k ∈ REQUIRED_FEATURES →
      (k ∈ (validate_flat (eraseKey flat k)).2.1 ∧
        (validate_flat (eraseKey flat k)).1 = false)) := by
  have hpred : ∀ (d : FeatMap) (k : String),
      (!containsKey d k) = (lookupKey d k).isNone := by
    intro d k
    by_cases h : containsKey d k = true
    · have hsome : lookupKey d k ≠ none := by
        intro hn
        rw [← containsKey_eq_false_iff] at hn
        rw [h] at hn
        exact Bool.noConfusion hn
      cases hl : lookupKey d k with
      | none => exact absurd hl hsome
      | some v => simp [h]
    · rw [Bool.not_eq_true] at h
      rw [(containsKey_eq_false_iff d k).mp h, h]
      rfl
  have hfilter : ∀ d : FeatMap,
      REQUIRED_FEATURES.filter (fun feat => !containsKey d feat) =
        REQUIRED_FEATURES.filter (fun k => (lookupKey d k).isNone) :=
    fun d => List.filter_congr (fun k _ => hpred d k)
  refine ⟨?_, ?_, ?_⟩
  · show (validate_flat (flatten_features features)).2.1 = _
    rw [validate_flat_eq]
    exact hfilter _
  · show ((validate_flat (flatten_features features)).1 = true ↔
      (validate_flat (flatten_features features)).2.1 = [])
    rw [validate_flat_eq]
    simp
  · intro flat k hk
    have herased : containsKey (eraseKey flat k) k = false :=
      (containsKey_eq_false_iff _ _).mpr (lookupKey_eraseKey_self flat k)
    have hmem : k ∈ REQUIRED_FEATURES.filter
        (fun feat => !containsKey (eraseKey flat k) feat) := by
      rw [List.mem_filter]
      exact ⟨hk, by rw [herased]; rfl⟩
    have hne : REQUIRED_FEATURES.filter
        (fun feat => !containsKey (eraseKey flat k) feat) ≠ [] :=
      List.ne_nil_of_mem hmem
    rw [validate_flat_eq]
    exact ⟨hmem, by simp [hne]⟩

theorem claim_C7_witness :
    ("TLD" ∈ REQUIRED_FEATURES) ∧
    ("TLD" ∈ (validate_flat (eraseKey [("TLD", Val.s "com")] "TLD")).2.1 ∧
      (validate_flat (eraseKey [("TLD", Val.s "com")] "TLD")).1 = false) :=
  ⟨by decide, (claim_C7 []).2.2 [("TLD", Val.s "com")] "TLD" (by decide)⟩

/-! ### Key-set characterisations of the five adapter partials -/

theorem keysOf_parse_domain (url : String) (e : TldExtracted) :
    keysOf (DomainWhois.parse_domain url e) =
      ["URL", "Domain", "DomainLengthOfURL", "IsDomainIP", "TLD", "TLDLength",
       "NumberOfSubdomains"] := rfl

theorem keysOf_ssl (s : FeatMap) : keysOf (collect_ssl_hosting s) = ["HasSSL"] := rfl

theorem keysOf_dynamic (obs : DynamicObservations) :
    keysOf (collect_dynamic_content obs) =
      ["IsResponsive", "IsURLRedirects", "IsSelfRedirects", "HasPopup", "HasIFrame",
       "IsFormSubmitExternal", "HasSocialMediaPage", "HasSubmitButton",
       "HasHiddenFields", "HasPasswordFields"] := by
  simp [collect_dynamic_content, extract_dynamic_features, eraseKey, keysOf]

/-- The success path of the static adapter as plain concatenation. -/
theorem static_success_eq (url : String) (doc : HtmlDoc) :
    extract_static_features url (some doc) =
      ((extract_url_structure url ++ [("IsUnreachable", Val.i 0)]) ++
        extract_html_structure doc.text) ++
        extract_meta_and_tags doc (some (urlparse url).netloc) := by
  have hku : keysOf (extract_url_structure url) =
      ["URL", "LengthOfURL", "HavingPath", "PathLength", "HavingQuery",
       "HavingFragment", "HavingAnchor"] := rfl
  have hndu : NodupKeys (extract_url_structure url) := by
    rw [NodupKeys, hku]; decide
  have hkh : keysOf (extract_html_structure doc.text) =
      ["LineOfCode", "LongestLineLength"] := rfl
  have hkm : keysOf (extract_meta_and_tags doc (some (urlparse url).netloc)) =
      ["HasTitle", "HasFavicon", "HasDescription", "HasRobotsBlocked", "CntImages",
       "CntFilesCSS", "CntFilesJS", "CntIFrame", "CntSelfHRef", "CntEmptyRef",
       "CntExternalRef", "CntPopup", "HasCopyrightInfoKey ", "HasBankingKey",
       "HasPaymentKey", "HasCryptoKey", "UniqueFeatureCnt"] := rfl
  have h0 : dictUpdate [] (extract_url_structure url) = extract_url_structure url := by
    rw [dictUpdate_eq_append [] _ (fun k _ => rfl) hndu]
    simp
  show dictUpdate (dictUpdate (dictSet (dictUpdate [] (extract_url_structure url))
      "IsUnreachable" (Val.i 0)) (extract_html_structure doc.text))
      (extract_meta_and_tags doc (some (urlparse url).netloc)) = _
  rw [h0]
  have h1 : dictSet (extract_url_structure url) "IsUnreachable" (Val.i 0) =
      extract_url_structure url ++ [("IsUnreachable", Val.i 0)] := by
    have hc : containsKey (extract_url_structure url) "IsUnreachable" = false :=
      containsKey_eq_false_of_not_mem _ _ (by rw [hku]; decide)
    simp [dictSet, hc]
  rw [h1]
  rw [dictUpdate_eq_append (extract_url_structure url ++ [("IsUnreachable", Val.i 0)])
    (extract_html_structure doc.text)
    (fun k hk => containsKey_eq_false_of_not_mem _ _ (by
      rw [keysOf_append, hku]
      rw [hkh] at hk
      fin_cases hk <;> decide))
    (by rw [NodupKeys, hkh]; decide)]
  rw [dictUpdate_eq_append
    ((extract_url_structure url ++ [("IsUnreachable", Val.i 0)]) ++
      extract_html_structure doc.text)
    (extract_meta_and_tags doc (some (urlparse url).netloc))
    (fun k hk => containsKey_eq_false_of_not_mem _ _ (by
      rw [keysOf_append, keysOf_append, hku, hkh]
      rw [hkm] at hk
      fin_cases hk <;> decide))
    (by rw [NodupKeys, hkm]; decide)]

theorem keysOf_static_success (url : String) (doc : HtmlDoc) :
    keysOf (extract_static_features url (some doc)) =
      ["URL", "LengthOfURL", "HavingPath", "PathLength", "HavingQuery",
       "HavingFragment", "HavingAnchor", "IsUnreachable", "LineOfCode",
       "LongestLineLength", "HasTitle", "HasFavicon", "HasDescription",
       "HasRobotsBlocked", "CntImages", "CntFilesCSS", "CntFilesJS", "CntIFrame",
       "CntSelfHRef", "CntEmptyRef", "CntExternalRef", "CntPopup",
       "HasCopyrightInfoKey ", "HasBankingKey", "HasPaymentKey", "HasCryptoKey",
       "UniqueFeatureCnt"] := by
  simp [extract_static_features, extract_url_structure, extract_html_structure,
    extract_meta_and_tags, dictUpdate, dictSet, containsKey, keysOf,
    List.foldl_cons, List.foldl_nil]

theorem keysOf_static_fail (url : String) :
    keysOf (extract_static_features url none) =
      ["URL", "LengthOfURL", "HavingPath", "PathLength", "HavingQuery",
       "HavingFragment", "HavingAnchor", "IsUnreachable"] := by
  rw [static_fail_eq]
  rfl

/-- Every key the static adapter can produce, reachable or not. -/
def staticKeyList : List String :=
  ["URL", "LengthOfURL", "HavingPath", "PathLength", "HavingQuery",
   "HavingFragment", "HavingAnchor", "IsUnreachable", "LineOfCode",
   "LongestLineLength", "HasTitle", "HasFavicon", "HasDescription",
   "HasRobotsBlocked", "CntImages", "CntFilesCSS", "CntFilesJS", "CntIFrame",
   "CntSelfHRef", "CntEmptyRef", "CntExternalRef", "CntPopup",
   "HasCopyrightInfoKey ", "HasBankingKey", "HasPaymentKey", "HasCryptoKey",
   "UniqueFeatureCnt"]

theorem keysOf_static_subset (url : String) (fetch : Option HtmlDoc) :
    ∀ x ∈ keysOf (extract_static_features url fetch), x ∈ staticKeyList := by
  cases fetch with
  | none =>
      intro x hx
      rw [keysOf_static_fail] at hx
      have hsub : (["URL", "LengthOfURL", "HavingPath", "PathLength", "HavingQuery",
          "HavingFragment", "HavingAnchor", "IsUnreachable"] : List String) ⊆
          staticKeyList := by decide
      exact hsub hx
  | some doc =>
      intro x hx
      rw [keysOf_static_success] at hx
      exact hx

theorem keysOf_composition (url : String) :
    keysOf (get_url_composition_features url) =
      ["URLComplexity", "CharacterComplexity", "LetterCntInURL", "URLLetterRatio",
       "DigitCntInURL", "URLDigitRatio", "EqualCharCntInURL", "QuesMarkCntInURL",
       "AmpCharCntInURL", "NumberOfHashtags", "OtherSpclCharCntInURL",
       "URLOtherSpclCharRatio"] := rfl

theorem keysOf_singleton (k : String) (v : Val) : keysOf [(k, v)] = [k] := rfl

/-- The derivation engine's dictionary as plain concatenation. -/
theorem derived_eq (ext : DeriveExternals) (url : String) :
    derive_features ext url =
      get_url_composition_features url ++
        [("ShannonEntropy", Val.r (shannon_entropy url)),
         ("KolmogorovComplexity", Val.r (kolmogorov_complexity ext url)),
         ("FractalDimension", Val.r (higuchi_fractal_dimension ext url)),
         ("HexPatternCnt", Val.i (count_hex_patterns ext url)),
         ("Base64PatternCnt", Val.i (count_base64_patterns ext url))] := by
  have hnd : NodupKeys (get_url_composition_features url) := by
    rw [NodupKeys, keysOf_composition]; decide
  have h0 : dictUpdate [] (get_url_composition_features url) =
      get_url_composition_features url := by
    rw [dictUpdate_eq_append [] _ (fun k _ => rfl) hnd]
    simp
  show dictSet (dictSet (dictSet (dictSet (dictSet
      (dictUpdate [] (get_url_composition_features url))
      "ShannonEntropy" (Val.r (shannon_entropy url)))
      "KolmogorovComplexity" (Val.r (kolmogorov_complexity ext url)))
      "FractalDimension" (Val.r (higuchi_fractal_dimension ext url)))
      "HexPatternCnt" (Val.i (count_hex_patterns ext url)))
      "Base64PatternCnt" (Val.i (count_base64_patterns ext url)) = _
  rw [h0]
  have step : ∀ (d : FeatMap) (k : String) (v : Val), containsKey d k = false →
      dictSet d k v = d ++ [(k, v)] := by
    intro d k v hc
    simp [dictSet, hc]
  have hk0 := keysOf_composition url
  rw [step _ "ShannonEntropy" _ (containsKey_eq_false_of_not_mem _ _
    (by simp only [keysOf_append, hk0, keysOf_singleton]; decide))]
  rw [step _ "KolmogorovComplexity" _ (containsKey_eq_false_of_not_mem _ _
    (by simp only [keysOf_append, hk0, keysOf_singleton]; decide))]
  rw [step _ "FractalDimension" _ (containsKey_eq_false_of_not_mem _ _
    (by simp only [keysOf_append, hk0, keysOf_singleton]; decide))]
  rw [step _ "HexPatternCnt" _ (containsKey_eq_false_of_not_mem _ _
    (by simp only [keysOf_append, hk0, keysOf_singleton]; decide))]
  rw [step _ "Base64PatternCnt" _ (containsKey_eq_false_of_not_mem _ _
    (by simp only [keysOf_append, hk0, keysOf_singleton]; decide))]
  simp

theorem keysOf_derived (ext : DeriveExternals) (url : String) :
    keysOf (derive_features ext url) =
      ["URLComplexity", "CharacterComplexity", "LetterCntInURL", "URLLetterRatio",
       "DigitCntInURL", "URLDigitRatio", "EqualCharCntInURL", "QuesMarkCntInURL",
       "AmpCharCntInURL", "NumberOfHashtags", "OtherSpclCharCntInURL",
       "URLOtherSpclCharRatio", "ShannonEntropy", "KolmogorovComplexity",
       "FractalDimension", "HexPatternCnt", "Base64PatternCnt"] := by
  rw [derived_eq, keysOf_append, keysOf_composition]
  rfl

theorem nodupKeys_parse_domain (url : String) (e : TldExtracted) :
    NodupKeys (DomainWhois.parse_domain url e) := by
  rw [NodupKeys, keysOf_parse_domain]; decide

theorem nodupKeys_ssl (s : FeatMap) : NodupKeys (collect_ssl_hosting s) := by
  rw [NodupKeys, keysOf_ssl]; decide

theorem nodupKeys_dynamic (obs : DynamicObservations) :
    NodupKeys (collect_dynamic_content obs) := by
  rw [NodupKeys, keysOf_dynamic]; decide

theorem nodupKeys_static (url : String) (fetch : Option HtmlDoc) :
    NodupKeys (extract_static_features url fetch) := by
  cases fetch with
  | none => rw [NodupKeys, keysOf_static_fail]; decide
  | some doc => rw [NodupKeys, keysOf_static_success]; decide

theorem nodupKeys_derived (ext : DeriveExternals) (url : String) :
    NodupKeys (derive_features ext url) := by
  rw [NodupKeys, keysOf_derived]; decide

theorem lookup_URL_parse_domain (url : String) (e : TldExtracted) :
    lookupKey (DomainWhois.parse_domain url e) "URL" = some (Val.s url) := rfl

theorem lookup_URL_static (url : String) (fetch : Option HtmlDoc) :
    lookupKey (extract_static_features url fetch) "URL" = some (Val.s url) := by
  cases fetch with
  | none =>
      rw [static_fail_eq, lookupKey_append]
      simp [extract_url_structure, lookupKey, Option.orElse]
  | some doc =>
      rw [static_success_eq, lookupKey_append]
      have h1 : lookupKey (extract_url_structure url) "URL" = some (Val.s url) := rfl
      rw [lookupKey_append, lookupKey_append, h1]
      rfl

/-! ### Order-independence of the merge -/

/-- Two partials never disagree on a key they share. -/
def agreeAt (A B : FeatMap) : Prop :=
  ∀ k v w, lookupKey A k = some v → lookupKey B k = some w → v = w

theorem agreeAt_self (A : FeatMap) : agreeAt A A := by
  intro k v w hv hw
  rw [hv] at hw
  injection hw

theorem agreeAt_symm {A B : FeatMap} (h : agreeAt A B) : agreeAt B A :=
  fun k v w hv hw => (h k w v hw hv).symm

theorem agreeAt_of_covers (A B : FeatMap) (ka kb : List String)
    (hA : ∀ x ∈ keysOf A, x ∈ ka) (hB : ∀ x ∈ keysOf B, x ∈ kb)
    (hdis : ka.all (fun x => decide (x ∉ kb)) = true) : agreeAt A B := by
  intro k v w hv hw
  have h1 : k ∈ ka := hA k (mem_keys_of_lookupKey A k v hv)
  have h2 : k ∈ kb := hB k (mem_keys_of_lookupKey B k w hw)
  exact absurd h2 (of_decide_eq_true (List.all_eq_true.mp hdis k h1))

theorem disjoint_of_covers (A B : FeatMap) (ka kb : List String)
    (hA : ∀ x ∈ keysOf A, x ∈ ka) (hB : ∀ x ∈ keysOf B, x ∈ kb)
    (hdis : ka.all (fun x => decide (x ∉ kb)) = true) :
    (keysOf A).Disjoint (keysOf B) :=
  fun x h1 h2 => (of_decide_eq_true (List.all_eq_true.mp hdis x (hA x h1))) (hB x h2)

theorem domain_static_inter (url : String) (e : TldExtracted) (fetch : Option HtmlDoc) :
    ∀ x, x ∈ keysOf (DomainWhois.parse_domain url e) →
      x ∈ keysOf (extract_static_features url fetch) → x = "URL" := by
  intro x hx hxs
  have hx27 := keysOf_static_subset url fetch x hxs
  rw [keysOf_parse_domain] at hx
  fin_cases hx
  · rfl
  all_goals (exfalso; revert hx27; decide)

theorem agree_domain_static (url : String) (e : TldExtracted) (fetch : Option HtmlDoc) :
    agreeAt (DomainWhois.parse_domain url e) (extract_static_features url fetch) := by
  intro k v w hv hw
  have hk := domain_static_inter url e fetch k
    (mem_keys_of_lookupKey _ _ _ hv) (mem_keys_of_lookupKey _ _ _ hw)
  subst hk
  rw [lookup_URL_parse_domain] at hv
  rw [lookup_URL_static] at hw
  injection hv with hv
  injection hw with hw
  rw [← hv, ← hw]

theorem lookupKey_dictUpdate_or (d1 d2 : FeatMap) (k : String) (h : NodupKeys d2) :
    lookupKey (dictUpdate d1 d2) k = (lookupKey d2 k).or (lookupKey d1 k) := by
  rw [lookupKey_dictUpdate d1 d2 k h]
  cases lookupKey d2 k <;> rfl

theorem lookupKey_foldl_dictUpdate (k : String) :
    ∀ (ps : List FeatMap) (acc : FeatMap), (∀ p ∈ ps, NodupKeys p) →
      lookupKey (ps.foldl dictUpdate acc) k =
        (ps.reverse.findSome? (fun p => lookupKey p k)).or (lookupKey acc k) := by
  intro ps
  induction ps with
  | nil => intro acc _; simp
  | cons p rest ih =>
      intro acc h
      have hp := h p (List.mem_cons_self _ _)
      have hrest : ∀ q ∈ rest, NodupKeys q := fun q hq => h q (List.mem_cons_of_mem _ hq)
      show lookupKey (rest.foldl dictUpdate (dictUpdate acc p)) k = _
      rw [ih (dictUpdate acc p) hrest, lookupKey_dictUpdate_or acc p k hp]
      rw [List.reverse_cons, List.findSome?_append]
      have hsing : List.findSome? (fun q => lookupKey q k) [p] = lookupKey p k := by
        cases hl : lookupKey p k <;> simp [List.findSome?_cons, hl]
      rw [hsing]
      cases List.findSome? (fun q => lookupKey q k) rest.reverse <;>
        cases lookupKey p k <;> rfl

theorem findSome?_perm_of_agree {β : Type} (f : FeatMap → Option β)
    (l1 l2 : List FeatMap) (hperm : l1.Perm l2)
    (hagree : ∀ a ∈ l1, ∀ b ∈ l1, ∀ v w, f a = some v → f b = some w → v = w) :
    l1.findSome? f = l2.findSome? f := by
  cases h1 : l1.findSome? f with
  | none =>
      symm
      rw [List.findSome?_eq_none_iff] at h1 ⊢
      intro a ha
      exact h1 a (hperm.mem_iff.mpr ha)
  | some v =>
      obtain ⟨a, ha, hfa⟩ := List.exists_of_findSome?_eq_some h1
      cases h2 : l2.findSome? f with
      | none =>
          rw [List.findSome?_eq_none_iff] at h2
          rw [h2 a (hperm.mem_iff.mp ha)] at hfa
          exact Option.noConfusion hfa
      | some w =>
          obtain ⟨b, hb, hfb⟩ := List.exists_of_findSome?_eq_some h2
          rw [hagree a ha b (hperm.mem_iff.mpr hb) v w hfa hfb]

/-- The dictionaries of a nested features map. -/
def dictsOf (l : Nested) : List FeatMap :=
  l.filterMap (fun kg =>
    match kg.2 with
    | Group.dict g => some g
    | Group.val _ => none)

def AllDicts (l : Nested) : Prop := ∀ kg ∈ l, ∃ g, kg.2 = Group.dict g

theorem flatten_features_eq_foldl :
    ∀ (l : Nested) (acc : FeatMap), AllDicts l →
      l.foldl (fun flat kg =>
        match kg.2 with
        | Group.dict g => dictUpdate flat g
        | Group.val v => dictSet flat kg.1 v) acc = (dictsOf l).foldl dictUpdate acc := by
  intro l
  induction l with
  | nil => intro acc _; rfl
  | cons kg rest ih =>
      intro acc hall
      obtain ⟨g, hg⟩ := hall kg (List.mem_cons_self _ _)
      have hrest : AllDicts rest := fun q hq => hall q (List.mem_cons_of_mem _ hq)
      rw [List.foldl_cons, hg, dictsOf, List.filterMap_cons, hg]
      exact ih (dictUpdate acc g) hrest

/-- Agreement at a key extends from the ten pairs to every choice of
two (not necessarily distinct) partials among five. -/
theorem agree_five (d1 d2 d3 d4 d5 : FeatMap) (k : String)
    (A12 : agreeAt d1 d2) (A13 : agreeAt d1 d3) (A14 : agreeAt d1 d4)
    (A15 : agreeAt d1 d5) (A23 : agreeAt d2 d3) (A24 : agreeAt d2 d4)
    (A25 : agreeAt d2 d5) (A34 : agreeAt d3 d4) (A35 : agreeAt d3 d5)
    (A45 : agreeAt d4 d5) :
    ∀ a ∈ [d1, d2, d3, d4, d5], ∀ b ∈ [d1, d2, d3, d4, d5],
      ∀ v w, lookupKey a k = some v → lookupKey b k = some w → v = w := by
  intro a ha b hb
  simp only [List.mem_cons, List.not_mem_nil, or_false] at ha hb
  rcases ha with rfl | rfl | rfl | rfl | rfl <;>
    rcases hb with rfl | rfl | rfl | rfl | rfl <;>
    first
      | exact agreeAt_self _ k
      | exact A12 k
      | exact agreeAt_symm A12 k
      | exact A13 k
      | exact agreeAt_symm A13 k
      | exact A14 k
      | exact agreeAt_symm A14 k
      | exact A15 k
      | exact agreeAt_symm A15 k
      | exact A23 k
      | exact agreeAt_symm A23 k
      | exact A24 k
      | exact agreeAt_symm A24 k
      | exact A25 k
      | exact agreeAt_symm A25 k
      | exact A34 k
      | exact agreeAt_symm A34 k
      | exact A35 k
      | exact agreeAt_symm A35 k
      | exact A45 k
      | exact agreeAt_symm A45 k

/-- C8 (counterexample): the adapter key sets are not pairwise
disjoint — both `parse_domain` and `extract_static_features` emit the
key `"URL"`. -/
theorem claim_C8_counterexample :
    "URL" ∈ keysOf (DomainWhois.parse_domain "http://x.com/" ⟨"", "x", "com"⟩) ∧
    "URL" ∈ keysOf (extract_static_features "http://x.com/" none) := by
  constructor
  · rw [keysOf_parse_domain]; decide
  · rw [keysOf_static_fail]; decide

set_option maxHeartbeats 1000000 in
/-- C8 (amended): the feature-name sets of the five adapter partials
are pairwise disjoint *except* that the domain-parsing and
static-content partials share exactly the key `"URL"`, which both bind
to the input URL string; consequently merging the partials by dict
update in any order still yields the same flattened record. -/
theorem claim_C8 (url : String) (inp : CollectInputs) (l : Nested)
    (hperm : l.Perm (collect_all_features url inp)) :
    ((keysOf (DomainWhois.parse_domain url inp.extracted)).Disjoint
        (keysOf (collect_ssl_hosting inp.ssl_info)) ∧
     (keysOf (DomainWhois.parse_domain url inp.extracted)).Disjoint
        (keysOf (collect_dynamic_content inp.dyn)) ∧
     (keysOf (DomainWhois.parse_domain url inp.extracted)).Disjoint
        (keysOf (derive_features inp.ext url)) ∧
     (keysOf (collect_ssl_hosting inp.ssl_info)).Disjoint
        (keysOf (extract_static_features url inp.fetch)) ∧
     (keysOf (collect_ssl_hosting inp.ssl_info)).Disjoint
        (keysOf (collect_dynamic_content inp.dyn)) ∧
     (keysOf (collect_ssl_hosting inp.ssl_info)).Disjoint
        (keysOf (derive_features inp.ext url)) ∧
     (keysOf (extract_static_features url inp.fetch)).Disjoint
        (keysOf (collect_dynamic_content inp.dyn)) ∧
     (keysOf (extract_static_features url inp.fetch)).Disjoint
        (keysOf (derive_features inp.ext url)) ∧
     (keysOf (collect_dynamic_content inp.dyn)).Disjoint
        (keysOf (derive_features inp.ext url))) ∧
    (∀ x, x ∈ keysOf (DomainWhois.parse_domain url inp.extracted) →
        x ∈ keysOf (extract_static_features url inp.fetch) → x = "URL") ∧
    (lookupKey (DomainWhois.parse_domain url inp.extracted) "URL" = some (Val.s url) ∧
     lookupKey (extract_static_features url inp.fetch) "URL" = some (Val.s url)) ∧
    (∀ k, lookupKey (flatten_features l) k =
        lookupKey (flatten_features (collect_all_features url inp)) k) := by
  have hc1 : ∀ x ∈ keysOf (DomainWhois.parse_domain url inp.extracted),
      x ∈ ["URL", "Domain", "DomainLengthOfURL", "IsDomainIP", "TLD", "TLDLength",
           "NumberOfSubdomains"] := by
    intro x hx; rw [keysOf_parse_domain] at hx; exact hx
  have hc2 : ∀ x ∈ keysOf (collect_ssl_hosting inp.ssl_info), x ∈ ["HasSSL"] := by
    intro x hx; rw [keysOf_ssl] at hx; exact hx
  have hc3 := keysOf_static_subset url inp.fetch
  have hc4 : ∀ x ∈ keysOf (collect_dynamic_content inp.dyn),
      x ∈ ["IsResponsive", "IsURLRedirects", "IsSelfRedirects", "HasPopup", "HasIFrame",
           "IsFormSubmitExternal", "HasSocialMediaPage", "HasSubmitButton",
           "HasHiddenFields", "HasPasswordFields"] := by
    intro x hx; rw [keysOf_dynamic] at hx; exact hx
  have hc5 : ∀ x ∈ keysOf (derive_features inp.ext url),
      x ∈ ["URLComplexity", "CharacterComplexity", "LetterCntInURL", "URLLetterRatio",
           "DigitCntInURL", "URLDigitRatio", "EqualCharCntInURL", "QuesMarkCntInURL",
           "AmpCharCntInURL", "NumberOfHashtags", "OtherSpclCharCntInURL",
           "URLOtherSpclCharRatio", "ShannonEntropy", "KolmogorovComplexity",
           "FractalDimension", "HexPatternCnt", "Base64PatternCnt"] := by
    intro x hx; rw [keysOf_derived] at hx; exact hx
  refine ⟨⟨disjoint_of_covers _ _ _ _ hc1 hc2 (by decide),
           disjoint_of_covers _ _ _ _ hc1 hc4 (by decide),
           disjoint_of_covers _ _ _ _ hc1 hc5 (by decide),
           disjoint_of_covers _ _ _ _ hc2 hc3 (by decide),
           disjoint_of_covers _ _ _ _ hc2 hc4 (by decide),
           disjoint_of_covers _ _ _ _ hc2 hc5 (by decide),
           disjoint_of_covers _ _ _ _ hc3 hc4 (by decide),
           disjoint_of_covers _ _ _ _ hc3 hc5 (by decide),
           disjoint_of_covers _ _ _ _ hc4 hc5 (by decide)⟩,
         domain_static_inter url inp.extracted inp.fetch,
         ⟨lookup_URL_parse_domain url inp.extracted, lookup_URL_static url inp.fetch⟩,
         ?_⟩
  intro k
  have hcollit : collect_all_features url inp =
      [("domain_whois", Group.dict (DomainWhois.parse_domain url inp.extracted)),
       ("ssl_hosting", Group.dict (collect_ssl_hosting inp.ssl_info)),
       ("static_content", Group.dict (extract_static_features url inp.fetch)),
       ("dynamic_content", Group.dict (collect_dynamic_content inp.dyn)),
       ("derived", Group.dict (derive_features inp.ext url))] := rfl
  have hallc : AllDicts (collect_all_features url inp) := by
    show ∀ kg ∈ collect_all_features url inp, ∃ g, kg.2 = Group.dict g
    rw [hcollit]
    simp only [List.forall_mem_cons]
    exact ⟨⟨_, rfl⟩, ⟨_, rfl⟩, ⟨_, rfl⟩, ⟨_, rfl⟩, ⟨_, rfl⟩,
      fun p hp => absurd hp (List.not_mem_nil p)⟩
  have halll : AllDicts l := fun kg hkg => hallc kg (hperm.mem_iff.mp hkg)
  have hdictsperm : (dictsOf l).Perm (dictsOf (collect_all_features url inp)) :=
    hperm.filterMap _
  have hdictsc : dictsOf (collect_all_features url inp) =
      [DomainWhois.parse_domain url inp.extracted,
       collect_ssl_hosting inp.ssl_info,
       extract_static_features url inp.fetch,
       collect_dynamic_content inp.dyn,
       derive_features inp.ext url] := by
    rw [hcollit]
    rfl
  have hnodupc : ∀ p ∈ dictsOf (collect_all_features url inp), NodupKeys p := by
    rw [hdictsc]
    simp only [List.forall_mem_cons]
    exact ⟨nodupKeys_parse_domain url inp.extracted, nodupKeys_ssl inp.ssl_info,
      nodupKeys_static url inp.fetch, nodupKeys_dynamic inp.dyn,
      nodupKeys_derived inp.ext url,
      fun p hp => absurd hp (List.not_mem_nil p)⟩
  have hnodupl : ∀ p ∈ dictsOf l, NodupKeys p :=
    fun p hp => hnodupc p (hdictsperm.mem_iff.mp hp)
  have hnoduplr : ∀ p ∈ (dictsOf l).reverse, NodupKeys p :=
    fun p hp => hnodupl p ((List.reverse_perm (dictsOf l)).mem_iff.mp hp)
  have hfl : flatten_features l = (dictsOf l).foldl dictUpdate [] :=
    flatten_features_eq_foldl l [] halll
  have hfc : flatten_features (collect_all_features url inp) =
      (dictsOf (collect_all_features url inp)).foldl dictUpdate [] :=
    flatten_features_eq_foldl _ [] hallc
  rw [hfl, hfc, lookupKey_foldl_dictUpdate k (dictsOf l) [] hnodupl,
    lookupKey_foldl_dictUpdate k (dictsOf (collect_all_features url inp)) [] hnodupc]
  have hrevperm : ((dictsOf l).reverse).Perm
      ((dictsOf (collect_all_features url inp)).reverse) :=
    (List.reverse_perm (dictsOf l)).trans
      (hdictsperm.trans (List.reverse_perm (dictsOf (collect_all_features url inp))).symm)
  have hmem5 : ∀ a ∈ (dictsOf l).reverse,
      a ∈ [DomainWhois.parse_domain url inp.extracted,
           collect_ssl_hosting inp.ssl_info,
           extract_static_features url inp.fetch,
           collect_dynamic_content inp.dyn,
           derive_features inp.ext url] := by
    intro a ha
    have h1 : a ∈ dictsOf l := (List.reverse_perm (dictsOf l)).mem_iff.mp ha
    have h2 : a ∈ dictsOf (collect_all_features url inp) := hdictsperm.mem_iff.mp h1
    rw [hdictsc] at h2
    exact h2
  have A12 : agreeAt (DomainWhois.parse_domain url inp.extracted)
      (collect_ssl_hosting inp.ssl_info) := agreeAt_of_covers _ _ _ _ hc1 hc2 (by decide)
  have A13 : agreeAt (DomainWhois.parse_domain url inp.extracted)
      (extract_static_features url inp.fetch) := agree_domain_static url inp.extracted inp.fetch
  have A14 : agreeAt (DomainWhois.parse_domain url inp.extracted)
      (collect_dynamic_content inp.dyn) := agreeAt_of_covers _ _ _ _ hc1 hc4 (by decide)
  have A15 : agreeAt (DomainWhois.parse_domain url inp.extracted)
      (derive_features inp.ext url) := agreeAt_of_covers _ _ _ _ hc1 hc5 (by decide)
  have A23 : agreeAt (collect_ssl_hosting inp.ssl_info)
      (extract_static_features url inp.fetch) := agreeAt_of_covers _ _ _ _ hc2 hc3 (by decide)
  have A24 : agreeAt (collect_ssl_hosting inp.ssl_info)
      (collect_dynamic_content inp.dyn) := agreeAt_of_covers _ _ _ _ hc2 hc4 (by decide)
  have A25 : agreeAt (collect_ssl_hosting inp.ssl_info)
      (derive_features inp.ext url) := agreeAt_of_covers _ _ _ _ hc2 hc5 (by decide)
  have A34 : agreeAt (extract_static_features url inp.fetch)
      (collect_dynamic_content inp.dyn) := agreeAt_of_covers _ _ _ _ hc3 hc4 (by decide)
  have A35 : agreeAt (extract_static_features url inp.fetch)
      (derive_features inp.ext url) := agreeAt_of_covers _ _ _ _ hc3 hc5 (by decide)
  have A45 : agreeAt (collect_dynamic_content inp.dyn)
      (derive_features inp.ext url) := agreeAt_of_covers _ _ _ _ hc4 hc5 (by decide)
  have hagree5 := agree_five (DomainWhois.parse_domain url inp.extracted)
    (collect_ssl_hosting inp.ssl_info) (extract_static_features url inp.fetch)
    (collect_dynamic_content inp.dyn) (derive_features inp.ext url) k
    A12 A13 A14 A15 A23 A24 A25 A34 A35 A45
  have hagree : ∀ a ∈ (dictsOf l).reverse, ∀ b ∈ (dictsOf l).reverse,
      ∀ v w, lookupKey a k = some v → lookupKey b k = some w → v = w :=
    fun a ha b hb => hagree5 a (hmem5 a ha) b (hmem5 b hb)
  rw [findSome?_perm_of_agree (fun p => lookupKey p k) _ _ hrevperm hagree]

noncomputable def c8inp : CollectInputs :=
  { extracted := ⟨"", "x", "com"⟩, ssl_info := [], fetch := none,
    dyn := ⟨0, 0, 0, 0, 0, 0, 0, 0, 0, 0, []⟩,
    ext := ⟨fun _ => 0, fun _ _ => 0, fun _ _ => 0⟩ }

/-- The same five collected partials with the first two groups swapped. -/
noncomputable def c8swapped : Nested :=
  ("ssl_hosting", Group.dict (collect_ssl_hosting c8inp.ssl_info)) ::
  ("domain_whois", Group.dict (DomainWhois.parse_domain "http://x.com/" c8inp.extracted)) ::
  [("static_content", Group.dict (extract_static_features "http://x.com/" c8inp.fetch)),
   ("dynamic_content", Group.dict (collect_dynamic_content c8inp.dyn)),
   ("derived", Group.dict (derive_features c8inp.ext "http://x.com/"))]

theorem claim_C8_witness :
    c8swapped.Perm (collect_all_features "http://x.com/" c8inp) ∧
    lookupKey (flatten_features c8swapped) "HasSSL" =
      lookupKey (flatten_features (collect_all_features "http://x.com/" c8inp)) "HasSSL" :=
  ⟨List.Perm.swap _ _ _,
   (claim_C8 "http://x.com/" c8inp c8swapped (List.Perm.swap _ _ _)).2.2.2 "HasSSL"⟩

end Phish
